import Mathlib

/-!
# goexpert-cotacao-dolar: the quote service and its client

A shallow embedding of `cmd/server/main.go` and `cmd/client/main.go`.

* Go `string` and `[]byte` values are lists of bytes (`Bytes`).
* The outcome of every call that leaves the process (the upstream HTTP call,
  reading its body, `database/sql`, the file system) is a field of an explicit
  environment; handlers are pure functions of the environment and of the
  state they start from (the rows of `exchange_rate`, the content of
  `cotacao.txt`).
* The parts of `encoding/json` and `unicode/utf8` that the two programs run
  are embedded as executable functions over bytes.
* `statement.ExecContext` is one atomic statement of the storage engine: when
  it returns nil the row is in the table, when it returns an error it is not.
* Log lines, standard output and errors of writing to the
  `http.ResponseWriter` are left out.
-/

namespace CotacaoDolar

/-! ## Bytes and UTF-8 (`unicode/utf8`) -/

/-- One Go `byte`. -/
abbrev Byte := Fin 256

/-- A Go `string` or `[]byte`: any sequence of bytes, valid UTF-8 or not. -/
abbrev Bytes := List Byte

/-- The byte with value `n` (truncated to eight bits, as Go's `byte(n)`). -/
def byte (n : Nat) : Byte := ⟨n % 256, Nat.mod_lt _ (by decide)⟩

/-- The value `utf8.RuneError` (U+FFFD). -/
def runeError : Nat := 0xFFFD

/-- Embedding of `utf8.AppendRune`: the UTF-8 encoding of a rune, surrogates
and values above U+10FFFF being written as U+FFFD. -/
def encodeRune (r : Nat) : Bytes :=
  if r < 0x80 then [byte r]
  else if r < 0x800 then [byte (0xC0 + r / 64), byte (0x80 + r % 64)]
  else if (0xD800 ≤ r ∧ r ≤ 0xDFFF) ∨ 0x10FFFF < r then [byte 0xEF, byte 0xBF, byte 0xBD]
  else if r < 0x10000 then
    [byte (0xE0 + r / 4096), byte (0x80 + r / 64 % 64), byte (0x80 + r % 64)]
  else
    [byte (0xF0 + r / 262144), byte (0x80 + r / 4096 % 64), byte (0x80 + r / 64 % 64),
      byte (0x80 + r % 64)]

/-- UTF-8 bytes of a sequence of Unicode scalar values. -/
def utf8Chars : List Char → Bytes
  | [] => []
  | c :: cs => encodeRune c.toNat ++ utf8Chars cs

/-- The Go string holding the text `s` (Go source text and string literals
are UTF-8). -/
def goString (s : String) : Bytes := utf8Chars s.toList

/-- Embedding of `utf8.DecodeRune`: the first rune of `p` and its width in
bytes; `(RuneError, 1)` for a byte that starts no valid encoding and
`(RuneError, 0)` for empty input. The `first` and `acceptRanges` tables are
unfolded into the comparisons they encode. -/
def decodeRune (p : Bytes) : Nat × Nat :=
  match p with
  | [] => (runeError, 0)
  | p0 :: rest =>
    if p0.val < 0x80 then (p0.val, 1)
    else if p0.val < 0xC2 ∨ 0xF4 < p0.val then (runeError, 1)
    else
      let sz : Nat := if p0.val < 0xE0 then 2 else if p0.val < 0xF0 then 3 else 4
      let lo : Nat := if p0.val = 0xE0 then 0xA0 else if p0.val = 0xF0 then 0x90 else 0x80
      let hi : Nat := if p0.val = 0xED then 0x9F else if p0.val = 0xF4 then 0x8F else 0xBF
      match rest with
      | [] => (runeError, 1)
      | b1 :: rest1 =>
        if rest.length + 1 < sz then (runeError, 1)
        else if b1.val < lo ∨ hi < b1.val then (runeError, 1)
        else if sz ≤ 2 then (p0.val % 32 * 64 + b1.val % 64, 2)
        else
          match rest1 with
          | [] => (runeError, 1)
          | b2 :: rest2 =>
            if b2.val < 0x80 ∨ 0xBF < b2.val then (runeError, 1)
            else if sz ≤ 3 then (p0.val % 16 * 4096 + b1.val % 64 * 64 + b2.val % 64, 3)
            else
              match rest2 with
              | [] => (runeError, 1)
              | b3 :: _ =>
                if b3.val < 0x80 ∨ 0xBF < b3.val then (runeError, 1)
                else
                  (p0.val % 8 * 262144 + b1.val % 64 * 4096 + b2.val % 64 * 64 + b3.val % 64, 4)

/-! ## Encoding strings (`encoding/json`, `appendString` with `escapeHTML`) -/

/-- The table `hex = "0123456789abcdef"`, for `n < 16`. -/
def hexDigit (n : Nat) : Byte := if n < 10 then byte (0x30 + n) else byte (0x57 + n)

/-- The table `htmlSafeSet`: the ASCII bytes that are written unescaped, which
are 0x20 to 0x7F except the quote, the ampersand, the angle brackets and the backslash. -/
def htmlSafe (b : Nat) : Bool :=
  decide (0x20 ≤ b ∧ b < 0x80 ∧ b ≠ 0x22 ∧ b ≠ 0x26 ∧ b ≠ 0x3C ∧ b ≠ 0x3E ∧ b ≠ 0x5C)

/-- One iteration of the loop of `appendString` at a non-empty `src`: the
bytes it contributes to the output and the number of input bytes it consumes.
Backspace and form feed are written as `\b` and `\f`, as Go 1.22 and later
do; earlier releases write `\u0008` and `\u000c`, which decode to the same
runes. -/
def escapeAt (src : Bytes) : Bytes × Nat :=
  match src with
  | [] => ([], 0)
  | b :: _ =>
    if b.val < 0x80 then
      if htmlSafe b.val then ([b], 1)
      else if b.val = 0x5C ∨ b.val = 0x22 then ([byte 0x5C, b], 1)
      else if b.val = 0x08 then ([byte 0x5C, byte 0x62], 1)
      else if b.val = 0x0C then ([byte 0x5C, byte 0x66], 1)
      else if b.val = 0x0A then ([byte 0x5C, byte 0x6E], 1)
      else if b.val = 0x0D then ([byte 0x5C, byte 0x72], 1)
      else if b.val = 0x09 then ([byte 0x5C, byte 0x74], 1)
      else
        ([byte 0x5C, byte 0x75, byte 0x30, byte 0x30, hexDigit (b.val / 16), hexDigit (b.val % 16)], 1)
    else
      let (c, size) := decodeRune (src.take 4)
      if c = runeError ∧ size = 1 then
        ([byte 0x5C, byte 0x75, byte 0x66, byte 0x66, byte 0x66, byte 0x64], 1)
      else if c = 0x2028 ∨ c = 0x2029 then
        ([byte 0x5C, byte 0x75, byte 0x32, byte 0x30, byte 0x32, hexDigit (c % 16)], size)
      else (src.take size, size)

/-- The loop of `appendString`: `skip` counts the bytes of the current rune
that are still to be stepped over (the loop's `i += size`). -/
def appendStringLoop : Nat → Bytes → Bytes
  | _, [] => []
  | skip + 1, _ :: rest => appendStringLoop skip rest
  | 0, b :: rest =>
    (escapeAt (b :: rest)).1 ++ appendStringLoop ((escapeAt (b :: rest)).2 - 1) rest

/-- Embedding of `appendString(dst, src, true)`: the JSON string literal for
the Go string `src`. -/
def appendString (src : Bytes) : Bytes :=
  byte 0x22 :: (appendStringLoop 0 src ++ [byte 0x22])

/-! ## Decoding (`encoding/json`: `scanner`, `unquote`, `decodeState`) -/

/-- A JSON value as the decoder sees it: strings are already unquoted to
runes, numbers keep their literal. -/
inductive JVal where
  | null
  | bool (b : Bool)
  | num (lit : Bytes)
  | str (s : List Char)
  | arr (elems : List JVal)
  | obj (members : List (List Char × JVal))

/-- Value of a hexadecimal digit (`getu4`). -/
def hexVal (b : Byte) : Option Nat :=
  if 0x30 ≤ b.val ∧ b.val ≤ 0x39 then some (b.val - 0x30)
  else if 0x61 ≤ b.val ∧ b.val ≤ 0x66 then some (b.val - 0x61 + 10)
  else if 0x41 ≤ b.val ∧ b.val ≤ 0x46 then some (b.val - 0x41 + 10)
  else none

/-- Embedding of `getu4` on the four bytes that follow `\u`. -/
def getu4 (s : Bytes) : Option Nat :=
  match s with
  | a :: b :: c :: d :: _ =>
    match hexVal a, hexVal b, hexVal c, hexVal d with
    | some x, some y, some z, some w => some (x * 4096 + y * 256 + z * 16 + w)
    | _, _, _, _ => none
  | _ => none

/-- Surrogate halves (`utf16.IsSurrogate`). -/
def isSurrogate (r : Nat) : Bool := decide (0xD800 ≤ r ∧ r < 0xE000)

/-- Embedding of `utf16.DecodeRune`: the rune of a surrogate pair, U+FFFD when
the two halves are not a pair. -/
def decodeSurrogatePair (r1 r2 : Nat) : Nat :=
  if 0xD800 ≤ r1 ∧ r1 < 0xDC00 ∧ 0xDC00 ≤ r2 ∧ r2 < 0xE000 then
    (r1 - 0xD800) * 1024 + (r2 - 0xDC00) + 0x10000
  else runeError

/-- One iteration of the loop of `unquoteBytes` at a non-empty `s` (the
content of a string literal): the rune it appends and the number of bytes it
consumes, or `none` where `unquoteBytes` reports failure. -/
def unquoteAt (s : Bytes) : Option (Char × Nat) :=
  match s with
  | [] => none
  | c :: rest =>
    if c.val = 0x5C then
      match rest with
      | [] => none
      | e :: rest1 =>
        if e.val = 0x22 ∨ e.val = 0x5C ∨ e.val = 0x2F ∨ e.val = 0x27 then
          some (Char.ofNat e.val, 2)
        else if e.val = 0x62 then some (Char.ofNat 0x08, 2)
        else if e.val = 0x66 then some (Char.ofNat 0x0C, 2)
        else if e.val = 0x6E then some (Char.ofNat 0x0A, 2)
        else if e.val = 0x72 then some (Char.ofNat 0x0D, 2)
        else if e.val = 0x74 then some (Char.ofNat 0x09, 2)
        else if e.val = 0x75 then
          match getu4 rest1 with
          | none => none
          | some rr =>
            if isSurrogate rr then
              match rest1.drop 4 with
              | b0 :: b1 :: rest2 =>
                if b0.val = 0x5C ∧ b1.val = 0x75 then
                  match getu4 rest2 with
                  | some rr1 =>
                    if decodeSurrogatePair rr rr1 ≠ runeError then
                      some (Char.ofNat (decodeSurrogatePair rr rr1), 12)
                    else some (Char.ofNat runeError, 6)
                  | none => some (Char.ofNat runeError, 6)
                else some (Char.ofNat runeError, 6)
              | _ => some (Char.ofNat runeError, 6)
            else some (Char.ofNat rr, 6)
        else none
    else if c.val = 0x22 ∨ c.val < 0x20 then none
    else if c.val < 0x80 then some (Char.ofNat c.val, 1)
    else some (Char.ofNat (decodeRune s).1, (decodeRune s).2)

/-- The loop of `unquoteBytes`; `skip` counts the bytes of the current
escape or rune still to be stepped over. -/
def unquoteLoop : Nat → Bytes → Option (List Char)
  | _, [] => some []
  | skip + 1, _ :: rest => unquoteLoop skip rest
  | 0, c :: rest =>
    match unquoteAt (c :: rest) with
    | none => none
    | some (r, size) => (unquoteLoop (size - 1) rest).map (fun t => r :: t)

/-- Embedding of `unquote` applied to the bytes between the two quotes of a
string literal: the runes of the decoded string (their UTF-8 encoding is the
Go string `unquote` returns), invalid UTF-8 and unpaired surrogates being
replaced by U+FFFD. -/
def unquote (raw : Bytes) : Option (List Char) := unquoteLoop 0 raw

/-- Position inside a string literal (`stateInString`, `stateInStringEsc`,
`stateInStringEscU` to `stateInStringEscU123`). -/
inductive StrState where
  | normal
  | esc
  | hex (left : Nat)

/-- Position inside a number (`stateNeg`, `state0`, `state1`, `stateDot`,
`stateDot0`, `stateE`, `stateESign`, `stateE0`). -/
inductive NumState where
  | neg
  | zero
  | int
  | dot
  | frac
  | e
  | eSign
  | exp

/-- The `step` function the scanner is about to run, with what the decoder
has collected so far for the value being read. -/
inductive Lex where
  | beginValue
  | beginValueOrEmpty
  | beginStringOrEmpty
  | beginString
  | inString (raw : Bytes) (st : StrState)
  | inNum (raw : Bytes) (st : NumState)
  | inLit (expect : Bytes) (v : JVal)
  | endValue (v : JVal)
  | error

/-- One entry of the scanner's `parseState` stack (`parseObjectKey`,
`parseObjectValue`, `parseArrayValue`) with the part of the enclosing
container already decoded. -/
inductive Frame where
  | objKey (members : List (List Char × JVal))
  | objValue (members : List (List Char × JVal)) (key : List Char)
  | arrValue (elems : List JVal)

/-- State of the scanner: the pending `step` and the `parseState` stack. -/
structure Scan where
  lex : Lex
  stack : List Frame

/-- The constant `maxNestingDepth`. -/
def maxNestingDepth : Nat := 10000

/-- The function `isSpace`. -/
def isSpace (c : Byte) : Bool :=
  decide (c.val = 0x20 ∨ c.val = 0x09 ∨ c.val = 0x0D ∨ c.val = 0x0A)

/-- The scanner after a syntax error (`s.error`). -/
def scanFail : Scan := ⟨Lex.error, []⟩

/-- Embedding of `pushParseState`: entering a container fails beyond
`maxNestingDepth` levels. -/
def pushParseState (stack : List Frame) (f : Frame) (next : Lex) : Scan :=
  if (f :: stack).length ≤ maxNestingDepth then ⟨next, f :: stack⟩ else scanFail

/-- Embedding of `stateEndValue`: the byte `c` after the complete value `v`.
With an empty stack this is `stateEndTop`. -/
def stateEndValue (stack : List Frame) (v : JVal) (c : Byte) : Scan :=
  match stack with
  | [] => if isSpace c then ⟨Lex.endValue v, []⟩ else scanFail
  | f :: below =>
    if isSpace c then ⟨Lex.endValue v, stack⟩
    else
      match f with
      | Frame.objKey ms =>
        match v with
        | JVal.str k =>
          if c.val = 0x3A then ⟨Lex.beginValue, Frame.objValue ms k :: below⟩ else scanFail
        | _ => scanFail
      | Frame.objValue ms k =>
        if c.val = 0x2C then ⟨Lex.beginString, Frame.objKey (ms ++ [(k, v)]) :: below⟩
        else if c.val = 0x7D then ⟨Lex.endValue (JVal.obj (ms ++ [(k, v)])), below⟩
        else scanFail
      | Frame.arrValue es =>
        if c.val = 0x2C then ⟨Lex.beginValue, Frame.arrValue (es ++ [v]) :: below⟩
        else if c.val = 0x5D then ⟨Lex.endValue (JVal.arr (es ++ [v])), below⟩
        else scanFail

/-- Embedding of `stateBeginValue`. -/
def stateBeginValue (stack : List Frame) (c : Byte) : Scan :=
  if isSpace c then ⟨Lex.beginValue, stack⟩
  else if c.val = 0x7B then pushParseState stack (Frame.objKey []) Lex.beginStringOrEmpty
  else if c.val = 0x5B then pushParseState stack (Frame.arrValue []) Lex.beginValueOrEmpty
  else if c.val = 0x22 then ⟨Lex.inString [] StrState.normal, stack⟩
  else if c.val = 0x2D then ⟨Lex.inNum [c] NumState.neg, stack⟩
  else if c.val = 0x30 then ⟨Lex.inNum [c] NumState.zero, stack⟩
  else if c.val = 0x74 then ⟨Lex.inLit [byte 0x72, byte 0x75, byte 0x65] (JVal.bool true), stack⟩
  else if c.val = 0x66 then
    ⟨Lex.inLit [byte 0x61, byte 0x6C, byte 0x73, byte 0x65] (JVal.bool false), stack⟩
  else if c.val = 0x6E then ⟨Lex.inLit [byte 0x75, byte 0x6C, byte 0x6C] JVal.null, stack⟩
  else if 0x31 ≤ c.val ∧ c.val ≤ 0x39 then ⟨Lex.inNum [c] NumState.int, stack⟩
  else scanFail

/-- Embedding of `stateBeginString`. -/
def stateBeginString (stack : List Frame) (c : Byte) : Scan :=
  if isSpace c then ⟨Lex.beginString, stack⟩
  else if c.val = 0x22 then ⟨Lex.inString [] StrState.normal, stack⟩
  else scanFail

/-- Whether `c` is a decimal digit. -/
def isDigit (c : Byte) : Bool := decide (0x30 ≤ c.val ∧ c.val ≤ 0x39)

/-- Whether `c` is a hexadecimal digit. -/
def isHex (c : Byte) : Bool := (hexVal c).isSome

/-- The states of a string literal: `raw` is the content read so far. At the
closing quote the content is unquoted, as the decoder does for keys and for
strings it stores; the scanner has then admitted only escapes that `unquote`
accepts. -/
def stateInString (stack : List Frame) (raw : Bytes) (st : StrState) (c : Byte) : Scan :=
  match st with
  | StrState.normal =>
    if c.val = 0x22 then
      match unquote raw with
      | some s => ⟨Lex.endValue (JVal.str s), stack⟩
      | none => scanFail
    else if c.val = 0x5C then ⟨Lex.inString (raw ++ [c]) StrState.esc, stack⟩
    else if c.val < 0x20 then scanFail
    else ⟨Lex.inString (raw ++ [c]) StrState.normal, stack⟩
  | StrState.esc =>
    if c.val = 0x62 ∨ c.val = 0x66 ∨ c.val = 0x6E ∨ c.val = 0x72 ∨ c.val = 0x74 ∨
        c.val = 0x5C ∨ c.val = 0x2F ∨ c.val = 0x22 then
      ⟨Lex.inString (raw ++ [c]) StrState.normal, stack⟩
    else if c.val = 0x75 then ⟨Lex.inString (raw ++ [c]) (StrState.hex 4), stack⟩
    else scanFail
  | StrState.hex left =>
    if isHex c then
      ⟨Lex.inString (raw ++ [c]) (if left ≤ 1 then StrState.normal else StrState.hex (left - 1)),
        stack⟩
    else scanFail

/-- The states of a number: `raw` is the literal read so far. A byte that
cannot continue a complete number ends it and is handed to `stateEndValue`. -/
def stateInNum (stack : List Frame) (raw : Bytes) (st : NumState) (c : Byte) : Scan :=
  let isE : Bool := decide (c.val = 0x65 ∨ c.val = 0x45)
  match st with
  | NumState.neg =>
    if c.val = 0x30 then ⟨Lex.inNum (raw ++ [c]) NumState.zero, stack⟩
    else if 0x31 ≤ c.val ∧ c.val ≤ 0x39 then ⟨Lex.inNum (raw ++ [c]) NumState.int, stack⟩
    else scanFail
  | NumState.int =>
    if isDigit c then ⟨Lex.inNum (raw ++ [c]) NumState.int, stack⟩
    else if c.val = 0x2E then ⟨Lex.inNum (raw ++ [c]) NumState.dot, stack⟩
    else if isE then ⟨Lex.inNum (raw ++ [c]) NumState.e, stack⟩
    else stateEndValue stack (JVal.num raw) c
  | NumState.zero =>
    if c.val = 0x2E then ⟨Lex.inNum (raw ++ [c]) NumState.dot, stack⟩
    else if isE then ⟨Lex.inNum (raw ++ [c]) NumState.e, stack⟩
    else stateEndValue stack (JVal.num raw) c
  | NumState.dot =>
    if isDigit c then ⟨Lex.inNum (raw ++ [c]) NumState.frac, stack⟩ else scanFail
  | NumState.frac =>
    if isDigit c then ⟨Lex.inNum (raw ++ [c]) NumState.frac, stack⟩
    else if isE then ⟨Lex.inNum (raw ++ [c]) NumState.e, stack⟩
    else stateEndValue stack (JVal.num raw) c
  | NumState.e =>
    if c.val = 0x2B ∨ c.val = 0x2D then ⟨Lex.inNum (raw ++ [c]) NumState.eSign, stack⟩
    else if isDigit c then ⟨Lex.inNum (raw ++ [c]) NumState.exp, stack⟩
    else scanFail
  | NumState.eSign =>
    if isDigit c then ⟨Lex.inNum (raw ++ [c]) NumState.exp, stack⟩ else scanFail
  | NumState.exp =>
    if isDigit c then ⟨Lex.inNum (raw ++ [c]) NumState.exp, stack⟩
    else stateEndValue stack (JVal.num raw) c

/-- The states of the literals `true`, `false` and `null` (`stateT` to
`stateNul`): `expect` is what is left of the literal. -/
def stateInLit (stack : List Frame) (expect : Bytes) (v : JVal) (c : Byte) : Scan :=
  match expect with
  | [] => scanFail
  | [x] => if c = x then ⟨Lex.endValue v, stack⟩ else scanFail
  | x :: more => if c = x then ⟨Lex.inLit more v, stack⟩ else scanFail

/-- One call of `s.step(s, c)`. -/
def scanStep (s : Scan) (c : Byte) : Scan :=
  match s.lex with
  | Lex.error => scanFail
  | Lex.beginValue => stateBeginValue s.stack c
  | Lex.beginValueOrEmpty =>
    if isSpace c then s
    else if c.val = 0x5D then
      match s.stack with
      | Frame.arrValue es :: below => ⟨Lex.endValue (JVal.arr es), below⟩
      | _ => scanFail
    else stateBeginValue s.stack c
  | Lex.beginStringOrEmpty =>
    if isSpace c then s
    else if c.val = 0x7D then
      match s.stack with
      | Frame.objKey ms :: below => ⟨Lex.endValue (JVal.obj ms), below⟩
      | _ => scanFail
    else stateBeginString s.stack c
  | Lex.beginString => stateBeginString s.stack c
  | Lex.inString raw st => stateInString s.stack raw st c
  | Lex.inNum raw st => stateInNum s.stack raw st c
  | Lex.inLit expect v => stateInLit s.stack expect v c
  | Lex.endValue v => stateEndValue s.stack v c

/-- The scanner before the first byte (`scan.reset`). -/
def scanInit : Scan := ⟨Lex.beginValue, []⟩

/-- Embedding of `scan.eof`: the scanner is fed one space, and the input is a
complete JSON text when that leaves a finished top-level value. -/
def scanEof (s : Scan) : Option JVal :=
  match scanStep s (byte 0x20) with
  | ⟨Lex.endValue v, []⟩ => some v
  | _ => none

/-- The JSON value of `data`, or `none` where `checkValid` reports a
`SyntaxError`. -/
def parseJSON (data : Bytes) : Option JVal := scanEof (data.foldl scanStep scanInit)

/-! ## The records of package `entities` and their JSON form -/

/-- Modelled from the spec: the declaration of `entities.Usdbrl` is not among
the sources. The spec's RateQuote has the four string fields `code`, `name`,
`bid`, `timestamp`, in this order, which are also the keys of the HTTP body;
the field names are those the two programs select (`Usdbrl.Code`,
`Usdbrl.Bid`, `Usdbrl.Name`, `Usdbrl.Timestamp`). -/
structure Usdbrl where
  Code : Bytes
  Name : Bytes
  Bid : Bytes
  Timestamp : Bytes
deriving DecidableEq

/-- Modelled from the spec: the declaration of `entities.ExchangeRateResponse`
is not among the sources. The upstream body is the JSON object
`USDBRL: (code, name, bid, timestamp, ...)`; the server reads its only field
as `exchangeRateResponse.Usdbrl`. -/
structure ExchangeRateResponse where
  Usdbrl : Usdbrl
deriving DecidableEq

/-- The zero value of `entities.Usdbrl`. -/
def Usdbrl.zero : Usdbrl := ⟨[], [], [], []⟩

/-- The fields of `Usdbrl`. -/
inductive UsdbrlField where
  | code
  | name
  | bid
  | timestamp
deriving DecidableEq

/-- Modelled from the spec: the JSON names of the fields of `entities.Usdbrl`
(its struct tags), in declaration order. -/
def usdbrlFields : List (String × UsdbrlField) :=
  [("code", UsdbrlField.code), ("name", UsdbrlField.name), ("bid", UsdbrlField.bid),
    ("timestamp", UsdbrlField.timestamp)]

/-- Modelled from the spec: the JSON name of the field of
`entities.ExchangeRateResponse`. -/
def exchangeRateResponseFields : List (String × Unit) := [("USDBRL", ())]

/-- The way `Unmarshal` fails: `SyntaxError` from `checkValid`, or
`UnmarshalTypeError` from the decoder. -/
inductive UnmarshalError where
  | invalidJSON
  | typeMismatch
deriving DecidableEq

/-- Embedding of `foldRune` on the runes that can fold to an ASCII letter:
lower case letters, U+017F (long s) and U+212A (Kelvin sign). The struct
fields here have ASCII names, so the value on other runes (never an ASCII
letter) does not matter to a comparison with them. -/
def foldRune (c : Char) : Char :=
  if 0x61 ≤ c.toNat ∧ c.toNat ≤ 0x7A then Char.ofNat (c.toNat - 0x20)
  else if c.toNat = 0x017F then Char.ofNat 0x53
  else if c.toNat = 0x212A then Char.ofNat 0x4B
  else c

/-- Embedding of `foldName`. -/
def foldName (name : List Char) : List Char := name.map foldRune

/-- The struct field a JSON object key selects: the field with exactly this
name (`byExactName`), otherwise the one with the same folded name
(`byFoldedName`), otherwise none (the member is skipped). -/
def lookupField {α : Type} (fields : List (String × α)) (key : List Char) : Option α :=
  match fields.find? (fun f => decide (f.1.toList = key)) with
  | some f => some f.2
  | none =>
    match fields.find? (fun f => decide (foldName f.1.toList = foldName key)) with
    | some f => some f.2
    | none => none

/-- Decoding a JSON value into a struct field of kind `string`
(`literalStore`, `d.array`, `d.object`): a string is stored, `null` leaves the
field as it is, anything else is an `UnmarshalTypeError`. The decoder keeps
the first such error, goes on, and returns it at the end; the embedding stops
at it, which gives the same `err` (the callers drop the target when `err` is
not nil). -/
def storeString (v : JVal) (old : Bytes) : Except UnmarshalError Bytes :=
  match v with
  | JVal.str s => Except.ok (utf8Chars s)
  | JVal.null => Except.ok old
  | _ => Except.error UnmarshalError.typeMismatch

/-- Decoding the value of one member into the field it selects. -/
def storeUsdbrlField (f : UsdbrlField) (v : JVal) (q : Usdbrl) : Except UnmarshalError Usdbrl :=
  match f with
  | UsdbrlField.code => (storeString v q.Code).map (fun x => { q with Code := x })
  | UsdbrlField.name => (storeString v q.Name).map (fun x => { q with Name := x })
  | UsdbrlField.bid => (storeString v q.Bid).map (fun x => { q with Bid := x })
  | UsdbrlField.timestamp => (storeString v q.Timestamp).map (fun x => { q with Timestamp := x })

/-- The loop of `d.object` over the members of an object decoded into a
`Usdbrl`: members are stored in input order, unknown keys are skipped. -/
def decodeUsdbrlMembers : List (List Char × JVal) → Usdbrl → Except UnmarshalError Usdbrl
  | [], q => Except.ok q
  | (k, v) :: more, q =>
    match lookupField usdbrlFields k with
    | none => decodeUsdbrlMembers more q
    | some f =>
      match storeUsdbrlField f v q with
      | Except.error e => Except.error e
      | Except.ok q1 => decodeUsdbrlMembers more q1

/-- Decoding a JSON value into a `Usdbrl` (`d.value` on a struct): an object
is decoded member by member, `null` leaves the struct as it is, anything else
is an `UnmarshalTypeError`. -/
def decodeUsdbrl (v : JVal) (q : Usdbrl) : Except UnmarshalError Usdbrl :=
  match v with
  | JVal.obj ms => decodeUsdbrlMembers ms q
  | JVal.null => Except.ok q
  | _ => Except.error UnmarshalError.typeMismatch

/-- The loop of `d.object` over the members of an object decoded into an
`ExchangeRateResponse`. -/
def decodeResponseMembers :
    List (List Char × JVal) → ExchangeRateResponse → Except UnmarshalError ExchangeRateResponse
  | [], r => Except.ok r
  | (k, v) :: more, r =>
    match lookupField exchangeRateResponseFields k with
    | none => decodeResponseMembers more r
    | some _ =>
      match decodeUsdbrl v r.Usdbrl with
      | Except.error e => Except.error e
      | Except.ok q => decodeResponseMembers more ⟨q⟩

/-- Decoding a JSON value into an `ExchangeRateResponse`. -/
def decodeResponse (v : JVal) (r : ExchangeRateResponse) :
    Except UnmarshalError ExchangeRateResponse :=
  match v with
  | JVal.obj ms => decodeResponseMembers ms r
  | JVal.null => Except.ok r
  | _ => Except.error UnmarshalError.typeMismatch

/-- Embedding of `json.Unmarshal(data, &exchangeRateResponse)` in the server,
the target being a zero `entities.ExchangeRateResponse`. The result is `err`
and, when `err` is nil, the value of the target. -/
def unmarshalExchangeRateResponse (data : Bytes) : Except UnmarshalError ExchangeRateResponse :=
  match parseJSON data with
  | none => Except.error UnmarshalError.invalidJSON
  | some v => decodeResponse v ⟨Usdbrl.zero⟩

/-- Embedding of `json.Unmarshal(response, &exchangeRateResponse)` in the
client, the target being `entities.Usdbrl{}`. -/
def unmarshalUsdbrl (data : Bytes) : Except UnmarshalError Usdbrl :=
  match parseJSON data with
  | none => Except.error UnmarshalError.invalidJSON
  | some v => decodeUsdbrl v Usdbrl.zero

/-- Embedding of `json.Marshal` on a `Usdbrl` with `escapeHTML`: an object
with one member per field, in declaration order. -/
def marshalUsdbrl (q : Usdbrl) : Bytes :=
  goString "\x7b\"code\":" ++ appendString q.Code ++
    goString ",\"name\":" ++ appendString q.Name ++
    goString ",\"bid\":" ++ appendString q.Bid ++
    goString ",\"timestamp\":" ++ appendString q.Timestamp ++ goString "\x7d"

/-- What `json.NewEncoder(w).Encode(q)` writes to `w`: the marshalled value
followed by a newline. -/
def encodeUsdbrl (q : Usdbrl) : Bytes := marshalUsdbrl q ++ [byte 0x0A]

/-! ## The server: `cmd/server/main.go` -/

/-- The value of `ctx.Err()` when the program reads it. -/
inductive CtxErr where
  | nil
  | canceled
  | deadlineExceeded
deriving DecidableEq

/-- Result of `io.ReadAll(resp.Body)`: the whole body, or an error together
with the state of the request's context at that moment (the body is read
under the same deadline as the request). -/
inductive ReadResult where
  | error (ctxErr : CtxErr)
  | ok (body : Bytes)
deriving DecidableEq

/-- Result of `http.DefaultClient.Do(req)`: an error together with the value
of `ctx.Err()` read right after it, or the response `Do` hands back, with its
status code and the result of reading its body. `Do` reports no error for a
non-2xx status. The default client follows redirects: a 3xx answer that
carries a `Location` header is not handed back, the answer to the redirected
request is. -/
inductive DoResult where
  | error (ctxErr : CtxErr)
  | response (statusCode : Nat) (read : ReadResult)
deriving DecidableEq

/-- One row of `exchange_rate (code TEXT, name TEXT, bid TEXT, timestamp TEXT)`;
`none` is SQL `NULL`. -/
structure Row where
  code : Option Bytes
  name : Option Bytes
  bid : Option Bytes
  timestamp : Option Bytes
deriving DecidableEq

/-- Result of `statement.ExecContext(dbCtx, ...)`: the statement ran (the
insert is one atomic statement: the row is in the table), or an error
together with the value of `dbCtx.Err()` read right after it (no row). -/
inductive ExecResult where
  | ok
  | error (dbCtxErr : CtxErr)
deriving DecidableEq

/-- What the storage does during one request. -/
structure DbEnv where
  openOk : Bool
  prepareOk : Bool
  exec : ExecResult
deriving DecidableEq

/-- The calls on `database/sql` a request makes, in order. -/
inductive DbOp where
  | openDb
  | prepare
  | exec (row : Row)
deriving DecidableEq

/-- What one request to the server meets: whether
`http.NewRequestWithContext` succeeds, the upstream call, the storage. -/
structure HandlerEnv where
  newRequestOk : Bool
  upstream : DoResult
  db : DbEnv
deriving DecidableEq

/-- What the handler leaves on its `http.ResponseWriter`. -/
structure Response where
  status : Nat
  header : List (String × String)
  body : Bytes
deriving DecidableEq

/-- Result of one run of a handler: the response, the rows of
`exchange_rate` afterwards, and the storage calls made. Log lines are left out. -/
structure Outcome where
  response : Response
  table : List Row
  dbOps : List DbOp
deriving DecidableEq

/-- The constant `http.StatusRequestTimeout`. -/
def StatusRequestTimeout : Nat := 408

/-- The constant `http.StatusInternalServerError`. -/
def StatusInternalServerError : Nat := 500

/-- The constant `http.StatusOK`, the status of a response whose handler
writes a body without calling `WriteHeader`. -/
def StatusOK : Nat := 200

/-- Embedding of `http.Error(w, msg, code)` on a fresh response: plain-text
headers, the status, and the message followed by a newline. -/
def httpError (msg : String) (code : Nat) : Response :=
  { status := code
    header := [("Content-Type", "text/plain; charset=utf-8"), ("X-Content-Type-Options", "nosniff")]
    body := goString msg ++ [byte 0x0A] }

/-- Embedding of `getDatabaseConnection`: the error message, or success. -/
def getDatabaseConnection (db : DbEnv) : Except String Unit :=
  if db.openOk then Except.ok () else Except.error "Failed to connect to database"

/-- The column list of the statement prepared by `insertExchangeRate`:
`INSERT INTO exchange_rate (code, bid, name, timestamp) VALUES (?, ?, ?, ?)`. -/
def insertColumns : List String := ["code", "bid", "name", "timestamp"]

/-- The arguments `insertExchangeRate` passes to `ExecContext`, in order. -/
def insertArgs (r : ExchangeRateResponse) : List Bytes :=
  [r.Usdbrl.Code, r.Usdbrl.Bid, r.Usdbrl.Name, r.Usdbrl.Timestamp]

/-- The row an `INSERT INTO exchange_rate (columns) VALUES (?, ...)` writes:
the i-th argument goes to the i-th listed column, an unlisted column is `NULL`. -/
def boundRow (columns : List String) (args : List Bytes) : Row :=
  { code := (columns.zip args).lookup "code"
    name := (columns.zip args).lookup "name"
    bid := (columns.zip args).lookup "bid"
    timestamp := (columns.zip args).lookup "timestamp" }

/-- Embedding of `insertExchangeRate`: the error it returns (`none` for nil),
the table afterwards and the storage calls it makes. -/
def insertExchangeRate (db : DbEnv) (r : ExchangeRateResponse) (table : List Row) :
    Option String × List Row × List DbOp :=
  if !db.prepareOk then
    (some "Failed to prepare statement for database", table, [DbOp.prepare])
  else
    let row := boundRow insertColumns (insertArgs r)
    match db.exec with
    | ExecResult.error dbCtxErr =>
      if dbCtxErr = CtxErr.deadlineExceeded then
        (some "Database insertion timeout exceeded (10ms)", table, [DbOp.prepare, DbOp.exec row])
      else
        (some "Failed to insert exchange rate into database", table, [DbOp.prepare, DbOp.exec row])
    | ExecResult.ok => (none, table ++ [row], [DbOp.prepare, DbOp.exec row])

/-- Embedding of `ExchangeRateHandler`. -/
def ExchangeRateHandler (env : HandlerEnv) (table : List Row) : Outcome :=
  if !env.newRequestOk then
    ⟨httpError "Failed to create request" StatusInternalServerError, table, []⟩
  else
    match env.upstream with
    | DoResult.error apiCtxErr =>
      if apiCtxErr = CtxErr.deadlineExceeded then
        ⟨httpError "API request timeout" StatusRequestTimeout, table, []⟩
      else
        ⟨httpError "Failed to fetch exchange rate" StatusInternalServerError, table, []⟩
    | DoResult.response _ (ReadResult.error _) =>
      ⟨httpError "Failed to read exchange rate response" StatusInternalServerError, table, []⟩
    | DoResult.response _ (ReadResult.ok response) =>
      match unmarshalExchangeRateResponse response with
      | Except.error _ =>
        ⟨httpError "Failed to parse exchange rate response" StatusInternalServerError, table, []⟩
      | Except.ok exchangeRateResponse =>
        match getDatabaseConnection env.db with
        | Except.error msg => ⟨httpError msg StatusInternalServerError, table, [DbOp.openDb]⟩
        | Except.ok _ =>
          match insertExchangeRate env.db exchangeRateResponse table with
          | (some msg, table1, ops) =>
            ⟨httpError msg StatusInternalServerError, table1, DbOp.openDb :: ops⟩
          | (none, table1, ops) =>
            ⟨{ status := StatusOK
               header := [("Content-Type", "application/json")]
               body := encodeUsdbrl exchangeRateResponse.Usdbrl }, table1, DbOp.openDb :: ops⟩

/-! ## The client: `cmd/client/main.go` -/

/-- Result of `file.WriteString(line)`: all of the line is written, or an
error after `written` bytes of it. -/
inductive WriteResult where
  | ok
  | error (written : Nat)
deriving DecidableEq

/-- What the file system does during one run of the client. -/
structure FsEnv where
  openOk : Bool
  write : WriteResult
deriving DecidableEq

/-- The line `fmt.Sprintf("Dólar: %s\n", bid)`. -/
def formatLine (bid : Bytes) : Bytes := goString "Dólar: " ++ bid ++ [byte 0x0A]

/-- Embedding of `saveToFile`: whether it returns nil, and `cotacao.txt`
afterwards (`none` when the file does not exist). The file is opened with
`O_CREATE|O_WRONLY|O_APPEND`. -/
def saveToFile (fs : FsEnv) (bid : Bytes) (file : Option Bytes) : Bool × Option Bytes :=
  if !fs.openOk then (false, file)
  else
    match fs.write with
    | WriteResult.error written => (false, some (file.getD [] ++ (formatLine bid).take written))
    | WriteResult.ok => (true, some (file.getD [] ++ formatLine bid))

/-- What one run of the client meets: whether `http.NewRequestWithContext`
succeeds, the call to the server, the file system. -/
structure ClientEnv where
  newRequestOk : Bool
  server : DoResult
  fs : FsEnv
deriving DecidableEq

/-- How `main` ends. -/
inductive Exit where
  | returned
  | panicked
deriving DecidableEq

/-- Result of one run of the client: how it ends and `cotacao.txt` afterwards. -/
structure ClientOutcome where
  exit : Exit
  file : Option Bytes
deriving DecidableEq

/-- Embedding of `main` of the client. Log lines and standard output are left out. -/
def clientMain (env : ClientEnv) (file : Option Bytes) : ClientOutcome :=
  if !env.newRequestOk then ⟨Exit.panicked, file⟩
  else
    match env.server with
    | DoResult.error _ => ⟨Exit.panicked, file⟩
    | DoResult.response _ (ReadResult.error _) => ⟨Exit.panicked, file⟩
    | DoResult.response _ (ReadResult.ok response) =>
      match unmarshalUsdbrl response with
      | Except.error _ => ⟨Exit.panicked, file⟩
      | Except.ok exchangeRateResponse =>
        match saveToFile env.fs exchangeRateResponse.Bid file with
        | (false, file1) => ⟨Exit.panicked, file1⟩
        | (true, file1) => ⟨Exit.returned, file1⟩

/-- The call to the server as the client sees it when the server's handler
produced `r` and the response arrives in time. -/
def delivered (r : Response) : DoResult := DoResult.response r.status (ReadResult.ok r.body)

/-! ## Auxiliary functions of the proofs -/

/-- What `appendString` writes for one rune of well-formed input. -/
def escapeRune (c : Char) : Bytes := (escapeAt (encodeRune c.toNat)).1

/-- What `appendString` writes between the quotes for well-formed input. -/
def escapeChars : List Char → Bytes
  | [] => []
  | c :: cs => escapeRune c ++ escapeChars cs

/-- A quote whose four fields are well-formed UTF-8. -/
def IsText (q : Usdbrl) : Prop :=
  ∃ a b c d : List Char, q = ⟨utf8Chars a, utf8Chars b, utf8Chars c, utf8Chars d⟩

/-- The upstream body of the spec's scenario. -/
def scenarioUpstreamBody : Bytes :=
  goString ("\x7b\"USDBRL\":\x7b\"code\":\"USD\",\"name\":\"Dolar/Real\",\"bid\":\"5.43\"," ++
    "\"timestamp\":\"1700000000\"\x7d\x7d")

/-- The quote of the spec's scenario. -/
def scenarioQuote : Usdbrl :=
  ⟨goString "USD", goString "Dolar/Real", goString "5.43", goString "1700000000"⟩

/-- The JSON object the spec's scenario expects in the response. -/
def scenarioResponseJSON : Bytes :=
  goString ("\x7b\"code\":\"USD\",\"name\":\"Dolar/Real\",\"bid\":\"5.43\"," ++
    "\"timestamp\":\"1700000000\"\x7d")

/-- The messages of the error responses of `ExchangeRateHandler`, those of
`getDatabaseConnection` and `insertExchangeRate` included. -/
def errorMessages : List String :=
  ["Failed to create request", "API request timeout", "Failed to fetch exchange rate",
    "Failed to read exchange rate response", "Failed to parse exchange rate response",
    "Failed to connect to database", "Failed to prepare statement for database",
    "Database insertion timeout exceeded (10ms)", "Failed to insert exchange rate into database"]

/-- The messages of the error responses of the storage stage. -/
def storageErrorMessages : List String :=
  ["Failed to connect to database", "Failed to prepare statement for database",
    "Database insertion timeout exceeded (10ms)", "Failed to insert exchange rate into database"]

/-- Equality of `Except` values is decidable. -/
instance instDecidableEqExcept {ε α : Type} [DecidableEq ε] [DecidableEq α] :
    DecidableEq (Except ε α) := fun a b =>
  match a, b with
  | Except.ok x, Except.ok y =>
    if h : x = y then isTrue (by rw [h]) else isFalse (fun h2 => h (Except.ok.inj h2))
  | Except.error x, Except.error y =>
    if h : x = y then isTrue (by rw [h]) else isFalse (fun h2 => h (Except.error.inj h2))
  | Except.ok _, Except.error _ => isFalse (fun h => Except.noConfusion h)
  | Except.error _, Except.ok _ => isFalse (fun h => Except.noConfusion h)

/-! ## Concrete requests -/

/-- The spec's scenario: the upstream answers 200 with the scenario body and the storage works. -/
def scenarioEnv : HandlerEnv :=
  ⟨true, DoResult.response 200 (ReadResult.ok scenarioUpstreamBody), ⟨true, true, ExecResult.ok⟩⟩

/-- The scenario's upstream body with a storage whose insert runs into the
10ms deadline. -/
def storageTimeoutEnv : HandlerEnv :=
  ⟨true, DoResult.response 200 (ReadResult.ok scenarioUpstreamBody),
    ⟨true, true, ExecResult.error CtxErr.deadlineExceeded⟩⟩

/-- The upstream call fails with the 200ms deadline exceeded. -/
def fetchTimeoutEnv : HandlerEnv :=
  ⟨true, DoResult.error CtxErr.deadlineExceeded, ⟨true, true, ExecResult.ok⟩⟩

/-! ## The paths of the handler -/

/-- The row `insertExchangeRate` binds for a decoded upstream response. -/
def rowOf (q : Usdbrl) : Row := ⟨some q.Code, some q.Name, some q.Bid, some q.Timestamp⟩

/-- The paths through `ExchangeRateHandler`, each with the outcome it produces. -/
inductive HandlerPath (env : HandlerEnv) (table : List Row) : Outcome → Prop where
  | newRequestFailed (h : env.newRequestOk = false) :
    HandlerPath env table
      ⟨httpError "Failed to create request" StatusInternalServerError, table, []⟩
  | fetchTimeout (h : env.newRequestOk = true)
      (hup : env.upstream = DoResult.error CtxErr.deadlineExceeded) :
    HandlerPath env table ⟨httpError "API request timeout" StatusRequestTimeout, table, []⟩
  | fetchFailed (h : env.newRequestOk = true) (e : CtxErr) (he : e ≠ CtxErr.deadlineExceeded)
      (hup : env.upstream = DoResult.error e) :
    HandlerPath env table
      ⟨httpError "Failed to fetch exchange rate" StatusInternalServerError, table, []⟩
  | readFailed (h : env.newRequestOk = true) (st : Nat) (e : CtxErr)
      (hup : env.upstream = DoResult.response st (ReadResult.error e)) :
    HandlerPath env table
      ⟨httpError "Failed to read exchange rate response" StatusInternalServerError, table, []⟩
  | parseFailed (h : env.newRequestOk = true) (st : Nat) (body : Bytes) (e : UnmarshalError)
      (hup : env.upstream = DoResult.response st (ReadResult.ok body))
      (hparse : unmarshalExchangeRateResponse body = Except.error e) :
    HandlerPath env table
      ⟨httpError "Failed to parse exchange rate response" StatusInternalServerError, table, []⟩
  | openFailed (h : env.newRequestOk = true) (st : Nat) (body : Bytes)
      (r : ExchangeRateResponse)
      (hup : env.upstream = DoResult.response st (ReadResult.ok body))
      (hparse : unmarshalExchangeRateResponse body = Except.ok r)
      (hopen : env.db.openOk = false) :
    HandlerPath env table
      ⟨httpError "Failed to connect to database" StatusInternalServerError, table, [DbOp.openDb]⟩
  | prepareFailed (h : env.newRequestOk = true) (st : Nat) (body : Bytes)
      (r : ExchangeRateResponse)
      (hup : env.upstream = DoResult.response st (ReadResult.ok body))
      (hparse : unmarshalExchangeRateResponse body = Except.ok r)
      (hopen : env.db.openOk = true) (hprep : env.db.prepareOk = false) :
    HandlerPath env table
      ⟨httpError "Failed to prepare statement for database" StatusInternalServerError, table,
        [DbOp.openDb, DbOp.prepare]⟩
  | insertTimeout (h : env.newRequestOk = true) (st : Nat) (body : Bytes)
      (r : ExchangeRateResponse)
      (hup : env.upstream = DoResult.response st (ReadResult.ok body))
      (hparse : unmarshalExchangeRateResponse body = Except.ok r)
      (hopen : env.db.openOk = true) (hprep : env.db.prepareOk = true)
      (hexec : env.db.exec = ExecResult.error CtxErr.deadlineExceeded) :
    HandlerPath env table
      ⟨httpError "Database insertion timeout exceeded (10ms)" StatusInternalServerError, table,
        [DbOp.openDb, DbOp.prepare, DbOp.exec (rowOf r.Usdbrl)]⟩
  | insertFailed (h : env.newRequestOk = true) (st : Nat) (body : Bytes)
      (r : ExchangeRateResponse) (e : CtxErr) (he : e ≠ CtxErr.deadlineExceeded)
      (hup : env.upstream = DoResult.response st (ReadResult.ok body))
      (hparse : unmarshalExchangeRateResponse body = Except.ok r)
      (hopen : env.db.openOk = true) (hprep : env.db.prepareOk = true)
      (hexec : env.db.exec = ExecResult.error e) :
    HandlerPath env table
      ⟨httpError "Failed to insert exchange rate into database" StatusInternalServerError, table,
        [DbOp.openDb, DbOp.prepare, DbOp.exec (rowOf r.Usdbrl)]⟩
  | served (h : env.newRequestOk = true) (st : Nat) (body : Bytes)
      (r : ExchangeRateResponse)
      (hup : env.upstream = DoResult.response st (ReadResult.ok body))
      (hparse : unmarshalExchangeRateResponse body = Except.ok r)
      (hopen : env.db.openOk = true) (hprep : env.db.prepareOk = true)
      (hexec : env.db.exec = ExecResult.ok) :
    HandlerPath env table
      ⟨⟨StatusOK, [("Content-Type", "application/json")], encodeUsdbrl r.Usdbrl⟩,
        table ++ [rowOf r.Usdbrl], [DbOp.openDb, DbOp.prepare, DbOp.exec (rowOf r.Usdbrl)]⟩

/-! # Theorems -/

/-! ## UTF-8 -/

theorem byte_val (n : Nat) : (byte n).val = n % 256 := rfl

theorem char_valid (c : Char) :
    c.toNat < 0xD800 ∨ (0xDFFF < c.toNat ∧ c.toNat < 0x110000) := c.valid

theorem decodeRune_encodeRune_nat (n : Nat) (hv : n < 0xD800 ∨ (0xDFFF < n ∧ n < 0x110000))
    (rest : Bytes) :
    decodeRune (encodeRune n ++ rest) = (n, (encodeRune n).length) := by
  have e1 : n / 64 / 64 = n / 4096 := Nat.div_div_eq_div_mul n 64 64
  have e2 : n / 4096 / 64 = n / 262144 := Nat.div_div_eq_div_mul n 4096 64
  unfold encodeRune
  split_ifs with h1 h2 h3 h4
  · simp only [decodeRune, List.cons_append, List.nil_append, byte_val, List.length_cons,
      List.length_nil]
    simp (disch := omega) only [if_pos, if_neg]
    simp only [Prod.mk.injEq, and_true]; omega
  · simp only [decodeRune, List.cons_append, List.nil_append, byte_val, List.length_cons,
      List.length_nil]
    simp (disch := omega) only [if_pos, if_neg]
    simp only [Prod.mk.injEq, and_true]; omega
  · omega
  · simp only [decodeRune, List.cons_append, List.nil_append, byte_val, List.length_cons,
      List.length_nil]
    simp (disch := omega) only [if_pos, if_neg]
    split_ifs <;> first | omega | (simp only [Prod.mk.injEq, and_true]; omega)
  · simp only [decodeRune, List.cons_append, List.nil_append, byte_val, List.length_cons,
      List.length_nil]
    simp (disch := omega) only [if_pos, if_neg]
    split_ifs <;> first | omega | (simp only [Prod.mk.injEq, and_true]; omega)

theorem decodeRune_encodeRune (c : Char) (rest : Bytes) :
    decodeRune (encodeRune c.toNat ++ rest) = (c.toNat, (encodeRune c.toNat).length) :=
  decodeRune_encodeRune_nat c.toNat (char_valid c) rest

theorem decodeRune_take (p : Bytes) : decodeRune (p.take 4) = decodeRune p := by
  rcases p with _ | ⟨a, _ | ⟨b, _ | ⟨c, _ | ⟨d, rest⟩⟩⟩⟩
  · rfl
  · rfl
  · rfl
  · rfl
  · simp only [List.take_succ_cons, List.take_zero, decodeRune, List.length_cons, List.length_nil]
    have h : ¬ (rest.length + 1 + 1 + 1 + 1 <
        if a.val < 224 then 2 else if a.val < 240 then 3 else 4) := by
      split_ifs <;> omega
    have h' : ¬ (0 + 1 + 1 + 1 + 1 <
        if a.val < 224 then 2 else if a.val < 240 then 3 else 4) := by
      split_ifs <;> omega
    simp only [if_neg h, if_neg h']

theorem encodeRune_high (n : Nat) (hv : n < 0xD800 ∨ (0xDFFF < n ∧ n < 0x110000))
    (h : 0x80 ≤ n) :
    ∃ b tl, encodeRune n = b :: tl ∧ 0x80 ≤ b.val ∧ (∀ x ∈ tl, 0x80 ≤ x.val) ∧
      2 ≤ (encodeRune n).length := by
  unfold encodeRune
  split_ifs with h1 h2 h3 h4
  · omega
  · refine ⟨_, _, rfl, ?_, ?_, by simp⟩
    · simp only [byte_val]; omega
    · intro x hx
      simp only [List.mem_singleton] at hx
      subst hx
      simp only [byte_val]; omega
  · omega
  · refine ⟨_, _, rfl, ?_, ?_, by simp⟩
    · simp only [byte_val]; omega
    · intro x hx
      simp only [List.mem_cons, List.mem_singleton, List.not_mem_nil, or_false] at hx
      rcases hx with hx | hx <;> subst hx <;> simp only [byte_val] <;> omega
  · refine ⟨_, _, rfl, ?_, ?_, by simp⟩
    · simp only [byte_val]; omega
    · intro x hx
      simp only [List.mem_cons, List.mem_singleton, List.not_mem_nil, or_false] at hx
      rcases hx with hx | hx | hx <;> subst hx <;> simp only [byte_val] <;> omega

theorem escapeAt_high (n : Nat) (hv : n < 0xD800 ∨ (0xDFFF < n ∧ n < 0x110000))
    (h : 0x80 ≤ n) (rest : Bytes) :
    escapeAt (encodeRune n ++ rest) =
      (if n = 0x2028 ∨ n = 0x2029 then
          [byte 0x5C, byte 0x75, byte 0x32, byte 0x30, byte 0x32, hexDigit (n % 16)]
        else encodeRune n, (encodeRune n).length) := by
  obtain ⟨b, tl, hb, hb80, -, hlen⟩ := encodeRune_high n hv h
  have hd := decodeRune_encodeRune_nat n hv rest
  rw [hb] at hd hlen ⊢
  have hnb : ¬ b.val < 0x80 := by omega
  simp only [List.cons_append, escapeAt, if_neg hnb]
  rw [← List.cons_append, decodeRune_take, hd]
  have h1 : ¬ (n = runeError ∧ (b :: tl).length = 1) := by omega
  simp only [if_neg h1]
  split_ifs
  · rfl
  · simp

theorem encodeRune_low (n : Nat) (h : n < 0x80) : encodeRune n = [byte n] := by
  simp only [encodeRune, if_pos h]

theorem escapeAt_low (b : Byte) (h : b.val < 0x80) (rest : Bytes) :
    escapeAt (b :: rest) = ((escapeAt [b]).1, 1) := by
  simp only [escapeAt, if_pos h]
  split_ifs <;> rfl

theorem escapeAt_encodeRune (c : Char) (rest : Bytes) :
    escapeAt (encodeRune c.toNat ++ rest) = (escapeRune c, (encodeRune c.toNat).length) := by
  by_cases h : c.toNat < 0x80
  · have hb : (byte c.toNat).val < 0x80 := by simp only [byte_val]; omega
    rw [escapeRune, encodeRune_low _ h, List.singleton_append, escapeAt_low _ hb]
    rfl
  · have h2 := escapeAt_high c.toNat (char_valid c) (by omega) rest
    have h3 := escapeAt_high c.toNat (char_valid c) (by omega) []
    rw [List.append_nil] at h3
    rw [escapeRune, h2, h3]

theorem appendStringLoop_skip (xs rest : Bytes) :
    appendStringLoop xs.length (xs ++ rest) = appendStringLoop 0 rest := by
  induction xs with
  | nil => rfl
  | cons x xs ih => simpa [appendStringLoop] using ih

theorem appendStringLoop_encodeRune (c : Char) (rest : Bytes) :
    appendStringLoop 0 (encodeRune c.toNat ++ rest) = escapeRune c ++ appendStringLoop 0 rest := by
  have h := escapeAt_encodeRune c rest
  rcases hb : encodeRune c.toNat with _ | ⟨b, tl⟩
  · have := char_valid c
    simp [encodeRune] at hb
    split_ifs at hb
  · rw [hb] at h
    rw [List.cons_append] at h ⊢
    rw [appendStringLoop, h]
    simp only [List.length_cons, Nat.add_sub_cancel]
    rw [appendStringLoop_skip]

theorem appendStringLoop_utf8 (cs : List Char) :
    appendStringLoop 0 (utf8Chars cs) = escapeChars cs := by
  induction cs with
  | nil => rfl
  | cons c cs ih => rw [utf8Chars, appendStringLoop_encodeRune, ih, escapeChars]

theorem hexVal_hexDigit (n : Nat) (h : n < 16) : hexVal (hexDigit n) = some n := by
  interval_cases n <;> rfl

theorem isHex_hexDigit (n : Nat) (h : n < 16) : isHex (hexDigit n) = true := by
  simp [isHex, hexVal_hexDigit n h]

theorem escapeRune_low (c : Char) (h : c.toNat < 0x80) :
    escapeRune c =
      if htmlSafe c.toNat then [byte c.toNat]
      else if c.toNat = 0x5C ∨ c.toNat = 0x22 then [byte 0x5C, byte c.toNat]
      else if c.toNat = 0x08 then [byte 0x5C, byte 0x62]
      else if c.toNat = 0x0C then [byte 0x5C, byte 0x66]
      else if c.toNat = 0x0A then [byte 0x5C, byte 0x6E]
      else if c.toNat = 0x0D then [byte 0x5C, byte 0x72]
      else if c.toNat = 0x09 then [byte 0x5C, byte 0x74]
      else
        [byte 0x5C, byte 0x75, byte 0x30, byte 0x30, hexDigit (c.toNat / 16),
          hexDigit (c.toNat % 16)] := by
  have hm : c.toNat % 256 = c.toNat := by omega
  simp only [escapeRune, encodeRune_low _ h, escapeAt, byte_val, hm, if_pos h]
  split_ifs <;> rfl

theorem escapeRune_high (c : Char) (h : 0x80 ≤ c.toNat) :
    escapeRune c =
      if c.toNat = 0x2028 ∨ c.toNat = 0x2029 then
        [byte 0x5C, byte 0x75, byte 0x32, byte 0x30, byte 0x32, hexDigit (c.toNat % 16)]
      else encodeRune c.toNat := by
  rw [escapeRune]
  have h3 := escapeAt_high c.toNat (char_valid c) h []
  rw [List.append_nil] at h3
  rw [h3]

/-! ## Scanning and unquoting what `appendString` wrote -/

theorem step_plain (raw : Bytes) (stack : List Frame) (b : Byte) (h1 : b.val ≠ 0x22)
    (h2 : b.val ≠ 0x5C) (h3 : 0x20 ≤ b.val) :
    scanStep ⟨Lex.inString raw StrState.normal, stack⟩ b =
      ⟨Lex.inString (raw ++ [b]) StrState.normal, stack⟩ := by
  have h4 : ¬ b.val < 0x20 := by omega
  simp only [scanStep, stateInString, if_neg h1, if_neg h2, if_neg h4]

theorem step_backslash (raw : Bytes) (stack : List Frame) :
    scanStep ⟨Lex.inString raw StrState.normal, stack⟩ (byte 0x5C) =
      ⟨Lex.inString (raw ++ [byte 0x5C]) StrState.esc, stack⟩ := rfl

theorem step_esc (raw : Bytes) (stack : List Frame) (b : Byte)
    (h : b.val = 0x62 ∨ b.val = 0x66 ∨ b.val = 0x6E ∨ b.val = 0x72 ∨ b.val = 0x74 ∨
      b.val = 0x5C ∨ b.val = 0x2F ∨ b.val = 0x22) :
    scanStep ⟨Lex.inString raw StrState.esc, stack⟩ b =
      ⟨Lex.inString (raw ++ [b]) StrState.normal, stack⟩ := by
  simp only [scanStep, stateInString, if_pos h]

theorem step_esc_u (raw : Bytes) (stack : List Frame) :
    scanStep ⟨Lex.inString raw StrState.esc, stack⟩ (byte 0x75) =
      ⟨Lex.inString (raw ++ [byte 0x75]) (StrState.hex 4), stack⟩ := rfl

theorem step_hex (raw : Bytes) (stack : List Frame) (k : Nat) (b : Byte) (h : isHex b = true) :
    scanStep ⟨Lex.inString raw (StrState.hex k), stack⟩ b =
      ⟨Lex.inString (raw ++ [b]) (if k ≤ 1 then StrState.normal else StrState.hex (k - 1)),
        stack⟩ := by
  simp only [scanStep, stateInString, h, if_true]

theorem scan_u_escape (raw : Bytes) (stack : List Frame) (a b c d : Byte) (ha : isHex a = true)
    (hb : isHex b = true) (hc : isHex c = true) (hd : isHex d = true) :
    [byte 0x5C, byte 0x75, a, b, c, d].foldl scanStep ⟨Lex.inString raw StrState.normal, stack⟩ =
      ⟨Lex.inString (raw ++ [byte 0x5C, byte 0x75, a, b, c, d]) StrState.normal, stack⟩ := by
  simp [List.foldl, step_backslash, step_esc_u, step_hex, ha, hb, hc, hd]

theorem scan_short_escape (raw : Bytes) (stack : List Frame) (b : Byte)
    (h : b.val = 0x62 ∨ b.val = 0x66 ∨ b.val = 0x6E ∨ b.val = 0x72 ∨ b.val = 0x74 ∨
      b.val = 0x5C ∨ b.val = 0x2F ∨ b.val = 0x22) :
    [byte 0x5C, b].foldl scanStep ⟨Lex.inString raw StrState.normal, stack⟩ =
      ⟨Lex.inString (raw ++ [byte 0x5C, b]) StrState.normal, stack⟩ := by
  rw [List.foldl_cons, List.foldl_cons, List.foldl_nil, step_backslash, step_esc _ _ _ h]
  simp

theorem scan_high (bs : Bytes) (h : ∀ x ∈ bs, 0x80 ≤ x.val) (raw : Bytes) (stack : List Frame) :
    bs.foldl scanStep ⟨Lex.inString raw StrState.normal, stack⟩ =
      ⟨Lex.inString (raw ++ bs) StrState.normal, stack⟩ := by
  induction bs generalizing raw with
  | nil => simp
  | cons b bs ih =>
    have hb := h b (List.mem_cons_self _ _)
    rw [List.foldl_cons, step_plain raw stack b (by omega) (by omega) (by omega),
      ih (fun x hx => h x (List.mem_cons_of_mem _ hx))]
    simp

theorem scan_escapeRune (c : Char) (raw : Bytes) (stack : List Frame) :
    (escapeRune c).foldl scanStep ⟨Lex.inString raw StrState.normal, stack⟩ =
      ⟨Lex.inString (raw ++ escapeRune c) StrState.normal, stack⟩ := by
  by_cases h : c.toNat < 0x80
  · rw [escapeRune_low c h]
    have hm : c.toNat % 256 = c.toNat := by omega
    split_ifs with h1 h2 h3 h4 h5 h6 h7
    · simp only [htmlSafe, decide_eq_true_eq] at h1
      rw [List.foldl_cons, List.foldl_nil, step_plain]
      all_goals simp only [byte_val]; omega
    · exact scan_short_escape raw stack _ (by simp only [byte_val]; omega)
    · exact scan_short_escape raw stack _ (by decide)
    · exact scan_short_escape raw stack _ (by decide)
    · exact scan_short_escape raw stack _ (by decide)
    · exact scan_short_escape raw stack _ (by decide)
    · exact scan_short_escape raw stack _ (by decide)
    · refine scan_u_escape raw stack _ _ _ _ ?_ ?_ ?_ ?_
      · rfl
      · rfl
      · exact isHex_hexDigit _ (by omega)
      · exact isHex_hexDigit _ (by omega)
  · rw [escapeRune_high c (by omega)]
    split_ifs with h1
    · refine scan_u_escape raw stack _ _ _ _ ?_ ?_ ?_ ?_
      · rfl
      · rfl
      · rfl
      · exact isHex_hexDigit _ (by omega)
    · obtain ⟨b, tl, hb, hb80, htl, -⟩ := encodeRune_high c.toNat (char_valid c) (by omega)
      apply scan_high
      rw [hb]
      intro x hx
      rcases List.mem_cons.1 hx with hx | hx
      · rw [hx]; exact hb80
      · exact htl x hx

theorem scan_escapeChars (cs : List Char) (raw : Bytes) (stack : List Frame) :
    (escapeChars cs).foldl scanStep ⟨Lex.inString raw StrState.normal, stack⟩ =
      ⟨Lex.inString (raw ++ escapeChars cs) StrState.normal, stack⟩ := by
  induction cs generalizing raw with
  | nil => simp [escapeChars]
  | cons c cs ih => rw [escapeChars, List.foldl_append, scan_escapeRune, ih, List.append_assoc]

theorem unquoteLoop_skip (xs rest : Bytes) :
    unquoteLoop xs.length (xs ++ rest) = unquoteLoop 0 rest := by
  induction xs with
  | nil => rfl
  | cons x xs ih => simpa [unquoteLoop] using ih

theorem unquoteAt_u_escape (a b c d : Byte) (x y z w : Nat) (rest : Bytes)
    (ha : hexVal a = some x) (hb : hexVal b = some y) (hc : hexVal c = some z)
    (hd : hexVal d = some w) (hs : isSurrogate (x * 4096 + y * 256 + z * 16 + w) = false) :
    unquoteAt ([byte 0x5C, byte 0x75, a, b, c, d] ++ rest) =
      some (Char.ofNat (x * 4096 + y * 256 + z * 16 + w), 6) := by
  simp [unquoteAt, byte_val, getu4, ha, hb, hc, hd, hs]

theorem unquoteAt_escapeRune (c : Char) (rest : Bytes) :
    unquoteAt (escapeRune c ++ rest) = some (c, (escapeRune c).length) := by
  have hc : Char.ofNat c.toNat = c := Char.ofNat_toNat c
  by_cases h : c.toNat < 0x80
  · rw [escapeRune_low c h]
    have hm : c.toNat % 256 = c.toNat := by omega
    split_ifs with h1 h2 h3 h4 h5 h6 h7
    · simp only [htmlSafe, decide_eq_true_eq] at h1
      have e1 : ¬ c.toNat = 92 := by omega
      have e2 : ¬ (c.toNat = 34 ∨ c.toNat < 32) := by omega
      simp [unquoteAt, byte_val, hm, e1, e2, h, hc]
    · have hc2 : c = Char.ofNat 0x5C ∨ c = Char.ofNat 0x22 := by
        rcases h2 with h2 | h2
        · left; rw [← hc, h2]
        · right; rw [← hc, h2]
      rcases hc2 with hc2 | hc2 <;> subst hc2 <;> rfl
    · have hc2 : c = Char.ofNat 0x08 := by rw [← hc, h3]
      subst hc2; rfl
    · have hc2 : c = Char.ofNat 0x0C := by rw [← hc, h4]
      subst hc2; rfl
    · have hc2 : c = Char.ofNat 0x0A := by rw [← hc, h5]
      subst hc2; rfl
    · have hc2 : c = Char.ofNat 0x0D := by rw [← hc, h6]
      subst hc2; rfl
    · have hc2 : c = Char.ofNat 0x09 := by rw [← hc, h7]
      subst hc2; rfl
    · rw [unquoteAt_u_escape (byte 0x30) (byte 0x30) _ _ 0 0 (c.toNat / 16) (c.toNat % 16) rest
        rfl rfl (hexVal_hexDigit _ (by omega)) (hexVal_hexDigit _ (by omega))
        (by simp only [isSurrogate, decide_eq_false_iff_not]; omega)]
      have e : 0 * 4096 + 0 * 256 + c.toNat / 16 * 16 + c.toNat % 16 = c.toNat := by omega
      rw [e, hc]; rfl
  · rw [escapeRune_high c (by omega)]
    split_ifs with h1
    · rw [unquoteAt_u_escape (byte 0x32) (byte 0x30) (byte 0x32) _ 2 0 2 (c.toNat % 16) rest
        rfl rfl rfl (hexVal_hexDigit _ (by omega))
        (by simp only [isSurrogate, decide_eq_false_iff_not]; omega)]
      have e : 2 * 4096 + 0 * 256 + 2 * 16 + c.toNat % 16 = c.toNat := by omega
      rw [e, hc]; rfl
    · obtain ⟨b, tl, hb, hb80, -, -⟩ := encodeRune_high c.toNat (char_valid c) (by omega)
      have hd := decodeRune_encodeRune c rest
      rw [hb] at hd ⊢
      have e1 : ¬ b.val = 92 := by omega
      have e2 : ¬ (b.val = 34 ∨ b.val < 32) := by omega
      have e3 : ¬ b.val < 128 := by omega
      rw [List.cons_append] at hd ⊢
      simp only [unquoteAt, if_neg e1, if_neg e2, if_neg e3, hd, hc]

theorem escapeRune_ne_nil (c : Char) : escapeRune c ≠ [] := by
  intro h
  have h1 := unquoteAt_escapeRune c []
  rw [h] at h1
  simp [unquoteAt] at h1

theorem unquoteLoop_escapeRune (c : Char) (rest : Bytes) :
    unquoteLoop 0 (escapeRune c ++ rest) = (unquoteLoop 0 rest).map (fun t => c :: t) := by
  have h := unquoteAt_escapeRune c rest
  rcases hb : escapeRune c with _ | ⟨b, tl⟩
  · exact absurd hb (escapeRune_ne_nil c)
  · rw [hb, List.cons_append] at h
    rw [List.cons_append, unquoteLoop, h]
    simp only [List.length_cons, Nat.add_sub_cancel]
    rw [unquoteLoop_skip]

theorem unquote_escapeChars (cs : List Char) : unquote (escapeChars cs) = some cs := by
  unfold unquote
  induction cs with
  | nil => rfl
  | cons c cs ih => rw [escapeChars, unquoteLoop_escapeRune, ih]; rfl

/-! ## Parsing what the server encodes -/

theorem appendString_utf8 (cs : List Char) :
    appendString (utf8Chars cs) = byte 0x22 :: (escapeChars cs ++ [byte 0x22]) := by
  rw [appendString, appendStringLoop_utf8]

theorem scan_string_literal (cs : List Char) (stack : List Frame) :
    (appendString (utf8Chars cs)).foldl scanStep ⟨Lex.beginValue, stack⟩ =
      ⟨Lex.endValue (JVal.str cs), stack⟩ := by
  rw [appendString_utf8, List.foldl_cons, List.foldl_append]
  have h0 : scanStep ⟨Lex.beginValue, stack⟩ (byte 0x22) =
      ⟨Lex.inString [] StrState.normal, stack⟩ := rfl
  rw [h0, scan_escapeChars, List.nil_append, List.foldl_cons, List.foldl_nil]
  simp only [scanStep, stateInString, byte_val, unquote_escapeChars]
  rfl

set_option maxRecDepth 100000 in
theorem scan_first_key :
    (goString "\x7b\"code\":").foldl scanStep scanInit =
      ⟨Lex.beginValue, [Frame.objValue [] "code".toList]⟩ := rfl

set_option maxRecDepth 100000 in
theorem scan_name_key (v : JVal) (ms : List (List Char × JVal)) (k : List Char) :
    (goString ",\"name\":").foldl scanStep ⟨Lex.endValue v, [Frame.objValue ms k]⟩ =
      ⟨Lex.beginValue, [Frame.objValue (ms ++ [(k, v)]) "name".toList]⟩ := rfl

set_option maxRecDepth 100000 in
theorem scan_bid_key (v : JVal) (ms : List (List Char × JVal)) (k : List Char) :
    (goString ",\"bid\":").foldl scanStep ⟨Lex.endValue v, [Frame.objValue ms k]⟩ =
      ⟨Lex.beginValue, [Frame.objValue (ms ++ [(k, v)]) "bid".toList]⟩ := rfl

set_option maxRecDepth 100000 in
theorem scan_timestamp_key (v : JVal) (ms : List (List Char × JVal)) (k : List Char) :
    (goString ",\"timestamp\":").foldl scanStep ⟨Lex.endValue v, [Frame.objValue ms k]⟩ =
      ⟨Lex.beginValue, [Frame.objValue (ms ++ [(k, v)]) "timestamp".toList]⟩ := rfl

set_option maxRecDepth 100000 in
theorem scan_object_end (v : JVal) (ms : List (List Char × JVal)) (k : List Char) :
    scanEof ((goString "\x7d" ++ [byte 0x0A]).foldl scanStep
      ⟨Lex.endValue v, [Frame.objValue ms k]⟩) = some (JVal.obj (ms ++ [(k, v)])) := rfl

theorem parseJSON_encodeUsdbrl (a b c d : List Char) :
    parseJSON (encodeUsdbrl ⟨utf8Chars a, utf8Chars b, utf8Chars c, utf8Chars d⟩) =
      some (JVal.obj [("code".toList, JVal.str a), ("name".toList, JVal.str b),
        ("bid".toList, JVal.str c), ("timestamp".toList, JVal.str d)]) := by
  simp only [parseJSON, encodeUsdbrl, marshalUsdbrl, List.append_assoc, List.foldl_append,
    scan_first_key, scan_string_literal, scan_name_key, scan_bid_key, scan_timestamp_key]
  rw [← List.foldl_append, scan_object_end]
  rfl

/-! ## Decoding into the records -/

set_option maxRecDepth 100000 in
theorem decodeUsdbrl_object (a b c d : List Char) :
    decodeUsdbrl (JVal.obj [("code".toList, JVal.str a), ("name".toList, JVal.str b),
      ("bid".toList, JVal.str c), ("timestamp".toList, JVal.str d)]) Usdbrl.zero =
      Except.ok ⟨utf8Chars a, utf8Chars b, utf8Chars c, utf8Chars d⟩ := rfl

theorem unmarshalUsdbrl_encodeUsdbrl (a b c d : List Char) :
    unmarshalUsdbrl (encodeUsdbrl ⟨utf8Chars a, utf8Chars b, utf8Chars c, utf8Chars d⟩) =
      Except.ok ⟨utf8Chars a, utf8Chars b, utf8Chars c, utf8Chars d⟩ := by
  rw [unmarshalUsdbrl, parseJSON_encodeUsdbrl]
  exact decodeUsdbrl_object a b c d

theorem isText_zero : IsText Usdbrl.zero := ⟨[], [], [], [], rfl⟩

theorem storeString_text {v : JVal} {old x : Bytes} (h : storeString v old = Except.ok x)
    (ho : ∃ s, old = utf8Chars s) : ∃ s, x = utf8Chars s := by
  cases v <;> simp [storeString] at h
  · rw [← h]; exact ho
  · exact ⟨_, h.symm⟩

theorem storeUsdbrlField_text {f : UsdbrlField} {v : JVal} {q q1 : Usdbrl}
    (h : storeUsdbrlField f v q = Except.ok q1) (hq : IsText q) : IsText q1 := by
  obtain ⟨a, b, c, d, rfl⟩ := hq
  cases f <;> simp only [storeUsdbrlField] at h
  · cases hs : storeString v (utf8Chars a) with
    | error e => simp [hs, Except.map] at h
    | ok x =>
      obtain ⟨s, rfl⟩ := storeString_text hs ⟨a, rfl⟩
      simp [hs, Except.map] at h
      exact ⟨s, b, c, d, h.symm⟩
  · cases hs : storeString v (utf8Chars b) with
    | error e => simp [hs, Except.map] at h
    | ok x =>
      obtain ⟨s, rfl⟩ := storeString_text hs ⟨b, rfl⟩
      simp [hs, Except.map] at h
      exact ⟨a, s, c, d, h.symm⟩
  · cases hs : storeString v (utf8Chars c) with
    | error e => simp [hs, Except.map] at h
    | ok x =>
      obtain ⟨s, rfl⟩ := storeString_text hs ⟨c, rfl⟩
      simp [hs, Except.map] at h
      exact ⟨a, b, s, d, h.symm⟩
  · cases hs : storeString v (utf8Chars d) with
    | error e => simp [hs, Except.map] at h
    | ok x =>
      obtain ⟨s, rfl⟩ := storeString_text hs ⟨d, rfl⟩
      simp [hs, Except.map] at h
      exact ⟨a, b, c, s, h.symm⟩

theorem decodeUsdbrlMembers_text (ms : List (List Char × JVal)) {q q1 : Usdbrl}
    (h : decodeUsdbrlMembers ms q = Except.ok q1) (hq : IsText q) : IsText q1 := by
  induction ms generalizing q with
  | nil =>
    simp only [decodeUsdbrlMembers, Except.ok.injEq] at h
    rw [← h]; exact hq
  | cons m ms ih =>
    obtain ⟨k, v⟩ := m
    simp only [decodeUsdbrlMembers] at h
    cases hl : lookupField usdbrlFields k with
    | none => rw [hl] at h; exact ih h hq
    | some f =>
      rw [hl] at h
      cases hs : storeUsdbrlField f v q with
      | error e => simp [hs] at h
      | ok q2 =>
        simp only [hs] at h
        exact ih h (storeUsdbrlField_text hs hq)

theorem decodeUsdbrl_text {v : JVal} {q q1 : Usdbrl} (h : decodeUsdbrl v q = Except.ok q1)
    (hq : IsText q) : IsText q1 := by
  cases v <;> simp [decodeUsdbrl] at h
  · rw [← h]; exact hq
  · exact decodeUsdbrlMembers_text _ h hq

theorem decodeResponseMembers_text (ms : List (List Char × JVal)) {r r1 : ExchangeRateResponse}
    (h : decodeResponseMembers ms r = Except.ok r1) (hq : IsText r.Usdbrl) :
    IsText r1.Usdbrl := by
  induction ms generalizing r with
  | nil =>
    simp only [decodeResponseMembers, Except.ok.injEq] at h
    rw [← h]; exact hq
  | cons m ms ih =>
    obtain ⟨k, v⟩ := m
    simp only [decodeResponseMembers] at h
    cases hl : lookupField exchangeRateResponseFields k with
    | none => rw [hl] at h; exact ih h hq
    | some f =>
      rw [hl] at h
      cases hs : decodeUsdbrl v r.Usdbrl with
      | error e => simp [hs] at h
      | ok q2 =>
        simp only [hs] at h
        exact ih h (decodeUsdbrl_text hs hq)

theorem unmarshalExchangeRateResponse_text {body : Bytes} {r : ExchangeRateResponse}
    (h : unmarshalExchangeRateResponse body = Except.ok r) : IsText r.Usdbrl := by
  unfold unmarshalExchangeRateResponse at h
  cases hp : parseJSON body with
  | none => simp [hp] at h
  | some v =>
    simp only [hp] at h
    cases v <;> simp [decodeResponse] at h
    · rw [← h]; exact isText_zero
    · exact decodeResponseMembers_text _ h isText_zero

theorem boundRow_insert (r : ExchangeRateResponse) :
    boundRow insertColumns (insertArgs r) = rowOf r.Usdbrl := by
  simp [boundRow, insertColumns, insertArgs, rowOf, List.lookup]

/-- Every run of `ExchangeRateHandler` follows one of the paths. -/
theorem handler_path (env : HandlerEnv) (table : List Row) :
    HandlerPath env table (ExchangeRateHandler env table) := by
  obtain ⟨nr, up, ⟨op, pr, ex⟩⟩ := env
  cases nr
  · simpa [ExchangeRateHandler] using HandlerPath.newRequestFailed rfl
  rcases up with e | ⟨st, e | body⟩
  · by_cases he : e = CtxErr.deadlineExceeded
    · subst he
      simpa [ExchangeRateHandler] using HandlerPath.fetchTimeout rfl rfl
    · simpa [ExchangeRateHandler, he] using HandlerPath.fetchFailed rfl e he rfl
  · simpa [ExchangeRateHandler] using HandlerPath.readFailed rfl st e rfl
  · cases hp : unmarshalExchangeRateResponse body with
    | error e => simpa [ExchangeRateHandler, hp] using HandlerPath.parseFailed rfl st body e rfl hp
    | ok r =>
      cases op
      · simpa [ExchangeRateHandler, hp, getDatabaseConnection] using
          HandlerPath.openFailed rfl st body r rfl hp rfl
      cases pr
      · simpa [ExchangeRateHandler, hp, getDatabaseConnection, insertExchangeRate] using
          HandlerPath.prepareFailed rfl st body r rfl hp rfl rfl
      cases ex with
      | ok =>
        simpa [ExchangeRateHandler, hp, getDatabaseConnection, insertExchangeRate,
          boundRow_insert] using HandlerPath.served rfl st body r rfl hp rfl rfl rfl
      | error e =>
        by_cases he : e = CtxErr.deadlineExceeded
        · subst he
          simpa [ExchangeRateHandler, hp, getDatabaseConnection, insertExchangeRate,
            boundRow_insert] using HandlerPath.insertTimeout rfl st body r rfl hp rfl rfl rfl
        · simpa [ExchangeRateHandler, hp, getDatabaseConnection, insertExchangeRate,
            boundRow_insert, he] using
            HandlerPath.insertFailed rfl st body r e he rfl hp rfl rfl rfl

/-! ## The client's control flow -/

theorem client_parse_error {cenv : ClientEnv} {st : Nat} {body : Bytes} {e : UnmarshalError}
    (hs : cenv.server = DoResult.response st (ReadResult.ok body))
    (hp : unmarshalUsdbrl body = Except.error e) (file : Option Bytes) :
    clientMain cenv file = ⟨Exit.panicked, file⟩ := by
  unfold clientMain
  cases cenv.newRequestOk <;> simp [hs, hp]

theorem saveToFile_ok_env {fs : FsEnv} {bid : Bytes} {file : Option Bytes}
    (h : (saveToFile fs bid file).1 = true) :
    fs.openOk = true ∧ fs.write = WriteResult.ok := by
  obtain ⟨op, wr⟩ := fs
  cases op <;> cases wr <;> simp_all [saveToFile]

theorem client_file_changed {cenv : ClientEnv} {file : Option Bytes}
    (h : (clientMain cenv file).file ≠ file) :
    ∃ st body q, cenv.server = DoResult.response st (ReadResult.ok body) ∧
      unmarshalUsdbrl body = Except.ok q := by
  obtain ⟨nr, sv, fs⟩ := cenv
  cases nr
  · simp [clientMain] at h
  rcases sv with e | ⟨st, e | body⟩
  · simp [clientMain] at h
  · simp [clientMain] at h
  · cases hp : unmarshalUsdbrl body with
    | error e => simp [clientMain, hp] at h
    | ok q => exact ⟨st, body, q, rfl, hp⟩

/-! ## Error bodies, the scenario and other concrete runs -/

set_option maxRecDepth 100000 in
theorem error_bodies_not_json :
    ∀ msg ∈ errorMessages,
      unmarshalUsdbrl (goString msg ++ [byte 0x0A]) = Except.error UnmarshalError.invalidJSON := by
  decide

theorem encodeUsdbrl_head (q : Usdbrl) : (encodeUsdbrl q).head? = some (byte 0x7B) := rfl

set_option maxRecDepth 100000 in
theorem error_bodies_head :
    ∀ msg ∈ errorMessages, (goString msg ++ [byte 0x0A]).head? ≠ some (byte 0x7B) := by
  decide

theorem error_body_ne_encode {msg : String} (h : msg ∈ errorMessages) (q : Usdbrl) :
    goString msg ++ [byte 0x0A] ≠ encodeUsdbrl q := by
  intro he
  have h1 := error_bodies_head msg h
  rw [he, encodeUsdbrl_head] at h1
  exact h1 rfl

set_option maxRecDepth 100000 in
theorem unmarshal_scenario :
    unmarshalExchangeRateResponse scenarioUpstreamBody = Except.ok ⟨scenarioQuote⟩ := by
  decide

set_option maxRecDepth 100000 in
theorem encode_scenario : encodeUsdbrl scenarioQuote = scenarioResponseJSON ++ [byte 0x0A] := by
  decide

set_option maxRecDepth 100000 in
theorem unmarshal_scenario_response :
    unmarshalUsdbrl (scenarioResponseJSON ++ [byte 0x0A]) = Except.ok scenarioQuote := by
  decide

theorem handler_success {env : HandlerEnv} {table : List Row} {st : Nat} {body : Bytes}
    {r : ExchangeRateResponse} (hreq : env.newRequestOk = true)
    (hup : env.upstream = DoResult.response st (ReadResult.ok body))
    (hparse : unmarshalExchangeRateResponse body = Except.ok r)
    (hopen : env.db.openOk = true) (hprep : env.db.prepareOk = true)
    (hexec : env.db.exec = ExecResult.ok) :
    ExchangeRateHandler env table =
      ⟨⟨StatusOK, [("Content-Type", "application/json")], encodeUsdbrl r.Usdbrl⟩,
        table ++ [rowOf r.Usdbrl],
        [DbOp.openDb, DbOp.prepare, DbOp.exec (rowOf r.Usdbrl)]⟩ := by
  simp [ExchangeRateHandler, hreq, hup, hparse, getDatabaseConnection, hopen, insertExchangeRate,
    hprep, hexec, boundRow_insert]

set_option maxRecDepth 100000 in
theorem parse_scenario_newline :
    parseJSON (scenarioResponseJSON ++ [byte 0x0A]) = parseJSON scenarioResponseJSON := rfl

theorem scenario_outcome :
    ExchangeRateHandler scenarioEnv [] =
      ⟨⟨StatusOK, [("Content-Type", "application/json")], encodeUsdbrl scenarioQuote⟩,
        [rowOf scenarioQuote], [DbOp.openDb, DbOp.prepare, DbOp.exec (rowOf scenarioQuote)]⟩ := by
  simp [ExchangeRateHandler, scenarioEnv, unmarshal_scenario, getDatabaseConnection,
    insertExchangeRate, boundRow_insert]

theorem scenario_status : (ExchangeRateHandler scenarioEnv []).response.status = StatusOK := by
  rw [scenario_outcome]

set_option maxRecDepth 100000

/-- C1 (the code departs from the claim). When the upstream response has
arrived but the 200ms deadline expires while its body is read, `io.ReadAll`
fails with the context's deadline error and `ExchangeRateHandler` answers 500
with "Failed to read exchange rate response", not 408: that branch does not
look at `apiCtx.Err()`. No storage call is made and the table is unchanged.
When the deadline expires while waiting for the response (`Do` fails), the
handler answers 408 without any storage call, as the claim says. -/
theorem C1_deadline_while_reading_body_answers_500 (st : Nat) (db : DbEnv) (table : List Row) :
    ExchangeRateHandler
        ⟨true, DoResult.response st (ReadResult.error CtxErr.deadlineExceeded), db⟩ table =
      ⟨httpError "Failed to read exchange rate response" StatusInternalServerError, table, []⟩ ∧
    (ExchangeRateHandler
        ⟨true, DoResult.response st (ReadResult.error CtxErr.deadlineExceeded), db⟩
        table).response.status ≠ StatusRequestTimeout ∧
    ExchangeRateHandler ⟨true, DoResult.error CtxErr.deadlineExceeded, db⟩ table =
      ⟨httpError "API request timeout" StatusRequestTimeout, table, []⟩ := by
  refine ⟨rfl, ?_, rfl⟩
  simp [ExchangeRateHandler, httpError, StatusInternalServerError, StatusRequestTimeout]

/-- C2. Whenever `ExchangeRateHandler` answers 200, the upstream body was read
and decoded to a quote `q`, the response body is the encoding of `q`, exactly
one insert was executed, the table gained exactly one row, and the row's
columns `code`, `name`, `bid`, `timestamp` hold `q.Code`, `q.Name`, `q.Bid`,
`q.Timestamp`: the statement lists the columns as (code, bid, name, timestamp)
and the arguments follow in the same order. -/
theorem C2_success_inserts_the_served_quote (env : HandlerEnv) (table : List Row)
    (h : (ExchangeRateHandler env table).response.status = StatusOK) :
    ∃ q : Usdbrl,
      (∃ st body, env.upstream = DoResult.response st (ReadResult.ok body) ∧
        unmarshalExchangeRateResponse body = Except.ok ⟨q⟩) ∧
      (ExchangeRateHandler env table).response.body = encodeUsdbrl q ∧
      (ExchangeRateHandler env table).table =
        table ++ [⟨some q.Code, some q.Name, some q.Bid, some q.Timestamp⟩] ∧
      (ExchangeRateHandler env table).dbOps =
        [DbOp.openDb, DbOp.prepare,
          DbOp.exec ⟨some q.Code, some q.Name, some q.Bid, some q.Timestamp⟩] ∧
      boundRow insertColumns (insertArgs ⟨q⟩) =
        ⟨some q.Code, some q.Name, some q.Bid, some q.Timestamp⟩ := by
  have hp := handler_path env table
  generalize ExchangeRateHandler env table = out at h hp
  cases hp <;>
    simp [httpError, StatusOK, StatusInternalServerError, StatusRequestTimeout] at h
  case served hreq st body r hup hparse hopen hprep hexec =>
    exact ⟨r.Usdbrl, ⟨st, body, hup, hparse⟩, rfl, rfl, rfl, boundRow_insert ⟨r.Usdbrl⟩⟩

/-- Witness of C2: the spec's scenario with a working storage. -/
theorem C2_success_inserts_the_served_quote_witness :
    (ExchangeRateHandler scenarioEnv []).response.status = StatusOK ∧
    ∃ q : Usdbrl,
      (∃ st body, scenarioEnv.upstream = DoResult.response st (ReadResult.ok body) ∧
        unmarshalExchangeRateResponse body = Except.ok ⟨q⟩) ∧
      (ExchangeRateHandler scenarioEnv []).response.body = encodeUsdbrl q ∧
      (ExchangeRateHandler scenarioEnv []).table =
        [] ++ [⟨some q.Code, some q.Name, some q.Bid, some q.Timestamp⟩] ∧
      (ExchangeRateHandler scenarioEnv []).dbOps =
        [DbOp.openDb, DbOp.prepare,
          DbOp.exec ⟨some q.Code, some q.Name, some q.Bid, some q.Timestamp⟩] ∧
      boundRow insertColumns (insertArgs ⟨q⟩) =
        ⟨some q.Code, some q.Name, some q.Bid, some q.Timestamp⟩ :=
  ⟨scenario_status, C2_success_inserts_the_served_quote scenarioEnv [] scenario_status⟩

/-- C3. When the upstream body was read and decoded but the storage stage
fails (opening the connection, preparing the statement, or executing the
insert), `ExchangeRateHandler` answers 500 with the plain-text headers of
`http.Error` and a body that is one of the storage error messages followed by
a newline; the body is not the JSON encoding of any quote, and the table is
left as it was. -/
theorem C3_storage_failure_answers_500 (env : HandlerEnv) (table : List Row) (st : Nat)
    (body : Bytes) (r : ExchangeRateResponse) (hreq : env.newRequestOk = true)
    (hup : env.upstream = DoResult.response st (ReadResult.ok body))
    (hparse : unmarshalExchangeRateResponse body = Except.ok r)
    (hfail : env.db.openOk = false ∨ env.db.prepareOk = false ∨
      ∃ e, env.db.exec = ExecResult.error e) :
    (ExchangeRateHandler env table).response.status = StatusInternalServerError ∧
    (ExchangeRateHandler env table).response.header =
      [("Content-Type", "text/plain; charset=utf-8"), ("X-Content-Type-Options", "nosniff")] ∧
    (∃ msg ∈ storageErrorMessages,
      (ExchangeRateHandler env table).response.body = goString msg ++ [byte 0x0A]) ∧
    (∀ q : Usdbrl, (ExchangeRateHandler env table).response.body ≠ encodeUsdbrl q) ∧
    (ExchangeRateHandler env table).table = table := by
  have key : ∃ msg ∈ storageErrorMessages, ∃ ops,
      ExchangeRateHandler env table = ⟨httpError msg StatusInternalServerError, table, ops⟩ := by
    have hp := handler_path env table
    generalize ExchangeRateHandler env table = out at hp
    cases hp
    case newRequestFailed h => rw [hreq] at h; cases h
    case fetchTimeout h hup2 => rw [hup] at hup2; cases hup2
    case fetchFailed h e he hup2 => rw [hup] at hup2; cases hup2
    case readFailed h st2 e hup2 => rw [hup] at hup2; cases hup2
    case parseFailed h st2 body2 e hup2 hparse2 =>
      rw [hup] at hup2; cases hup2; rw [hparse] at hparse2; cases hparse2
    case openFailed => exact ⟨_, by simp [storageErrorMessages], _, rfl⟩
    case prepareFailed => exact ⟨_, by simp [storageErrorMessages], _, rfl⟩
    case insertTimeout => exact ⟨_, by simp [storageErrorMessages], _, rfl⟩
    case insertFailed => exact ⟨_, by simp [storageErrorMessages], _, rfl⟩
    case served h st2 body2 r2 hup2 hparse2 hopen hprep hexec =>
      rcases hfail with hf | hf | ⟨e, hf⟩
      · rw [hopen] at hf; cases hf
      · rw [hprep] at hf; cases hf
      · rw [hexec] at hf; cases hf
  obtain ⟨msg, hmsg, ops, hout⟩ := key
  rw [hout]
  refine ⟨rfl, rfl, ⟨msg, hmsg, rfl⟩, fun q => ?_, rfl⟩
  have hm : msg ∈ errorMessages := by
    simp only [storageErrorMessages, List.mem_cons, List.mem_singleton, List.not_mem_nil,
      or_false] at hmsg
    rcases hmsg with h | h | h | h <;> subst h <;> simp [errorMessages]
  exact error_body_ne_encode hm q

/-- Witness of C3: the spec's scenario with a storage whose insert times out. -/
theorem C3_storage_failure_answers_500_witness :
    (ExchangeRateHandler
      ⟨true, DoResult.response 200 (ReadResult.ok scenarioUpstreamBody),
        ⟨true, true, ExecResult.error CtxErr.deadlineExceeded⟩⟩ []).response.status =
      StatusInternalServerError ∧
    (ExchangeRateHandler
      ⟨true, DoResult.response 200 (ReadResult.ok scenarioUpstreamBody),
        ⟨true, true, ExecResult.error CtxErr.deadlineExceeded⟩⟩ []).table = [] :=
  ⟨(C3_storage_failure_answers_500
      ⟨true, DoResult.response 200 (ReadResult.ok scenarioUpstreamBody),
        ⟨true, true, ExecResult.error CtxErr.deadlineExceeded⟩⟩ [] 200 scenarioUpstreamBody
      ⟨scenarioQuote⟩ rfl rfl unmarshal_scenario (Or.inr (Or.inr ⟨_, rfl⟩))).1,
    (C3_storage_failure_answers_500
      ⟨true, DoResult.response 200 (ReadResult.ok scenarioUpstreamBody),
        ⟨true, true, ExecResult.error CtxErr.deadlineExceeded⟩⟩ [] 200 scenarioUpstreamBody
      ⟨scenarioQuote⟩ rfl rfl unmarshal_scenario (Or.inr (Or.inr ⟨_, rfl⟩))).2.2.2.2⟩

/-- C4. When the upstream body is read and decoded to `r` and the storage
succeeds, `ExchangeRateHandler` answers 200 with content type
`application/json`, and the body is the encoding of `r.Usdbrl` (the object
followed by the newline `Encode` writes): as JSON it is the object with
exactly the four members `code`, `name`, `bid`, `timestamp`, in this order,
whose values are the strings decoded from the upstream body. For the upstream
body of the scenario the body is the JSON text of the scenario (then the
newline). -/
theorem C4_success_answers_200_with_the_quote (env : HandlerEnv) (table : List Row) (st : Nat)
    (body : Bytes) (r : ExchangeRateResponse) (hreq : env.newRequestOk = true)
    (hup : env.upstream = DoResult.response st (ReadResult.ok body))
    (hparse : unmarshalExchangeRateResponse body = Except.ok r)
    (hopen : env.db.openOk = true) (hprep : env.db.prepareOk = true)
    (hexec : env.db.exec = ExecResult.ok) :
    (ExchangeRateHandler env table).response.status = StatusOK ∧
    (ExchangeRateHandler env table).response.header = [("Content-Type", "application/json")] ∧
    (ExchangeRateHandler env table).response.body = encodeUsdbrl r.Usdbrl ∧
    (∃ code name bid timestamp : List Char,
      r.Usdbrl = ⟨utf8Chars code, utf8Chars name, utf8Chars bid, utf8Chars timestamp⟩ ∧
      parseJSON (ExchangeRateHandler env table).response.body =
        some (JVal.obj [("code".toList, JVal.str code), ("name".toList, JVal.str name),
          ("bid".toList, JVal.str bid), ("timestamp".toList, JVal.str timestamp)])) ∧
    (body = scenarioUpstreamBody →
      (ExchangeRateHandler env table).response.body = scenarioResponseJSON ++ [byte 0x0A] ∧
      parseJSON (ExchangeRateHandler env table).response.body = parseJSON scenarioResponseJSON) := by
  rw [handler_success hreq hup hparse hopen hprep hexec]
  refine ⟨rfl, rfl, rfl, ?_, ?_⟩
  · obtain ⟨a, b, c, d, hq⟩ := unmarshalExchangeRateResponse_text hparse
    refine ⟨a, b, c, d, hq, ?_⟩
    simp only [hq]
    exact parseJSON_encodeUsdbrl a b c d
  · intro hb
    rw [hb, unmarshal_scenario] at hparse
    cases hparse
    exact ⟨encode_scenario, by rw [encode_scenario]; exact parse_scenario_newline⟩

/-- Witness of C4: the spec's scenario. -/
theorem C4_success_answers_200_with_the_quote_witness :
    (ExchangeRateHandler scenarioEnv []).response.status = StatusOK ∧
    (ExchangeRateHandler scenarioEnv []).response.body = scenarioResponseJSON ++ [byte 0x0A] :=
  ⟨(C4_success_answers_200_with_the_quote scenarioEnv [] 200 scenarioUpstreamBody
      ⟨scenarioQuote⟩ rfl rfl unmarshal_scenario rfl rfl rfl).1,
    ((C4_success_answers_200_with_the_quote scenarioEnv [] 200 scenarioUpstreamBody
      ⟨scenarioQuote⟩ rfl rfl unmarshal_scenario rfl rfl rfl).2.2.2.2 rfl).1⟩

/-- C7, counterexample. A Go string need not be valid UTF-8. For the quote
whose `bid` is the single byte 0xFF the server writes `"bid":"\ufffd"`, and
the client decodes the three bytes of U+FFFD: the record that comes back is
not the record that was sent. -/
theorem C7_invalid_utf8_does_not_round_trip :
    encodeUsdbrl ⟨[], [], [byte 0xFF], []⟩ =
      goString ("\x7b\"code\":\"\",\"name\":\"\",\"bid\":\"\\ufffd\",\"timestamp\":\"\"\x7d" ++
        "\n") ∧
    unmarshalUsdbrl (encodeUsdbrl ⟨[], [], [byte 0xFF], []⟩) =
      Except.ok ⟨[], [], [byte 0xEF, byte 0xBF, byte 0xBD], []⟩ ∧
    unmarshalUsdbrl (encodeUsdbrl ⟨[], [], [byte 0xFF], []⟩) ≠
      Except.ok ⟨[], [], [byte 0xFF], []⟩ := by
  decide

/-- C7, amended. For every quote whose four fields are well-formed UTF-8 (any
four texts `code`, `name`, `bid`, `timestamp`), decoding with the client's
step the body the server's step writes succeeds and yields the same quote.
Every quote the server decodes from an upstream body is of this kind. -/
theorem C7_round_trip_of_text (code name bid timestamp : String) :
    unmarshalUsdbrl
        (encodeUsdbrl ⟨goString code, goString name, goString bid, goString timestamp⟩) =
      Except.ok ⟨goString code, goString name, goString bid, goString timestamp⟩ ∧
    (∀ (body : Bytes) (r : ExchangeRateResponse),
      unmarshalExchangeRateResponse body = Except.ok r →
        unmarshalUsdbrl (encodeUsdbrl r.Usdbrl) = Except.ok r.Usdbrl) := by
  refine ⟨unmarshalUsdbrl_encodeUsdbrl _ _ _ _, fun body r h => ?_⟩
  obtain ⟨a, b, c, d, hq⟩ := unmarshalExchangeRateResponse_text h
  rw [hq]
  exact unmarshalUsdbrl_encodeUsdbrl a b c d

/-- Witness of C7 (amended): the quote decoded from the scenario's upstream
body comes back unchanged. -/
theorem C7_round_trip_of_text_witness :
    unmarshalExchangeRateResponse scenarioUpstreamBody = Except.ok ⟨scenarioQuote⟩ ∧
    unmarshalUsdbrl (encodeUsdbrl scenarioQuote) = Except.ok scenarioQuote :=
  ⟨unmarshal_scenario,
    (C7_round_trip_of_text "" "" "" "").2 scenarioUpstreamBody ⟨scenarioQuote⟩
      unmarshal_scenario⟩

/-- C8. A call of `saveToFile` that returns nil leaves `cotacao.txt` with its
prior content (nothing, when the file did not exist) followed by exactly the
line "Dólar: ", the bid, newline. With such a file system the client that
receives the 200 response of the scenario appends exactly "Dólar: 5.43\n"
and returns. -/
theorem C8_saveToFile_appends_one_line (fs : FsEnv) (bid : Bytes) (file : Option Bytes)
    (h : (saveToFile fs bid file).1 = true) :
    (saveToFile fs bid file).2 =
      some (file.getD [] ++ (goString "Dólar: " ++ bid ++ goString "\n")) ∧
    (∀ c, file = some c →
      (saveToFile fs bid file).2 = some (c ++ (goString "Dólar: " ++ bid ++ goString "\n"))) ∧
    clientMain ⟨true, delivered (ExchangeRateHandler scenarioEnv []).response, fs⟩ file =
      ⟨Exit.returned, some (file.getD [] ++ goString "Dólar: 5.43\n")⟩ := by
  obtain ⟨hopen, hwrite⟩ := saveToFile_ok_env h
  have h1 : (saveToFile fs bid file).2 =
      some (file.getD [] ++ (goString "Dólar: " ++ bid ++ goString "\n")) := by
    simp [saveToFile, hopen, hwrite, formatLine]
    rfl
  refine ⟨h1, ?_, ?_⟩
  · intro c hc
    rw [h1, hc]
    rfl
  · rw [scenario_outcome]
    simp only [delivered, clientMain, encode_scenario, unmarshal_scenario_response,
      saveToFile, hopen, hwrite, formatLine]
    simp
    rfl

/-- Witness of C8: a working file system, the bid 5.43, the file holding one
earlier line. -/
theorem C8_saveToFile_appends_one_line_witness :
    (saveToFile ⟨true, WriteResult.ok⟩ (goString "5.43") (some (goString "Dólar: 5.40\n"))).1 =
      true ∧
    (saveToFile ⟨true, WriteResult.ok⟩ (goString "5.43") (some (goString "Dólar: 5.40\n"))).2 =
      some (goString "Dólar: 5.40\nDólar: 5.43\n") :=
  ⟨rfl, (C8_saveToFile_appends_one_line ⟨true, WriteResult.ok⟩ (goString "5.43")
    (some (goString "Dólar: 5.40\n")) rfl).1.trans (by decide)⟩

/-- C9. When the insert fails, `insertExchangeRate` returns the timeout error
if `dbCtx.Err()` is the deadline error and the write error otherwise; the two
messages differ; `ExchangeRateHandler` answers 500 with the message in both
cases. For every request, the status is 408 exactly when the upstream call
failed with the request's deadline exceeded. -/
theorem C9_insert_failure_is_classified_and_answers_500 (env : HandlerEnv) (table : List Row)
    (st : Nat) (body : Bytes) (r : ExchangeRateResponse) (e : CtxErr)
    (hreq : env.newRequestOk = true)
    (hup : env.upstream = DoResult.response st (ReadResult.ok body))
    (hparse : unmarshalExchangeRateResponse body = Except.ok r)
    (hopen : env.db.openOk = true) (hprep : env.db.prepareOk = true)
    (hexec : env.db.exec = ExecResult.error e) :
    (insertExchangeRate env.db r table).1 =
      some (if e = CtxErr.deadlineExceeded then "Database insertion timeout exceeded (10ms)"
        else "Failed to insert exchange rate into database") ∧
    "Database insertion timeout exceeded (10ms)" ≠
      "Failed to insert exchange rate into database" ∧
    (ExchangeRateHandler env table).response =
      httpError (if e = CtxErr.deadlineExceeded then "Database insertion timeout exceeded (10ms)"
        else "Failed to insert exchange rate into database") StatusInternalServerError ∧
    (ExchangeRateHandler env table).response.status ≠ StatusRequestTimeout ∧
    (ExchangeRateHandler env table).table = table ∧
    (∀ (env1 : HandlerEnv) (table1 : List Row),
      (ExchangeRateHandler env1 table1).response.status = StatusRequestTimeout ↔
        (env1.newRequestOk = true ∧ env1.upstream = DoResult.error CtxErr.deadlineExceeded)) := by
  refine ⟨?_, by decide, ?_, ?_, ?_, ?_⟩
  · by_cases he : e = CtxErr.deadlineExceeded <;> simp [insertExchangeRate, hprep, hexec, he]
  · by_cases he : e = CtxErr.deadlineExceeded <;>
      simp [ExchangeRateHandler, hreq, hup, hparse, getDatabaseConnection, hopen,
        insertExchangeRate, hprep, hexec, he]
  · by_cases he : e = CtxErr.deadlineExceeded <;>
      simp [ExchangeRateHandler, hreq, hup, hparse, getDatabaseConnection, hopen,
        insertExchangeRate, hprep, hexec, he, httpError, StatusInternalServerError,
        StatusRequestTimeout]
  · by_cases he : e = CtxErr.deadlineExceeded <;>
      simp [ExchangeRateHandler, hreq, hup, hparse, getDatabaseConnection, hopen,
        insertExchangeRate, hprep, hexec, he]
  · intro env1 table1
    have hp := handler_path env1 table1
    generalize ExchangeRateHandler env1 table1 = out at hp
    cases hp
    case fetchTimeout h hup1 => exact ⟨fun _ => ⟨h, hup1⟩, fun _ => rfl⟩
    case newRequestFailed h =>
      simp [httpError, StatusInternalServerError, StatusRequestTimeout, h]
    all_goals
      simp_all [httpError, StatusInternalServerError, StatusRequestTimeout, StatusOK]

/-- Witness of C9: the scenario's upstream body with an insert that runs
into the 10ms deadline. -/
theorem C9_insert_failure_is_classified_and_answers_500_witness :
    storageTimeoutEnv.db.exec = ExecResult.error CtxErr.deadlineExceeded ∧
    (ExchangeRateHandler storageTimeoutEnv []).response =
      httpError "Database insertion timeout exceeded (10ms)" StatusInternalServerError :=
  ⟨rfl, (C9_insert_failure_is_classified_and_answers_500 storageTimeoutEnv [] 200
    scenarioUpstreamBody ⟨scenarioQuote⟩ CtxErr.deadlineExceeded rfl rfl unmarshal_scenario
    rfl rfl rfl).2.2.1⟩

/-- C10. The client's outcome does not depend on the status code of the
response. Every response of `ExchangeRateHandler` with status 408 or 500 has
as body one of the handler's fixed messages followed by a newline; the
client's `json.Unmarshal` rejects it as invalid JSON, so the client panics and
`cotacao.txt` is left as it was. Whenever a run of the client changes the
file, the body it received was accepted by `json.Unmarshal` (so it is valid
JSON). -/
theorem C10_client_panics_on_error_responses (env : HandlerEnv) (table : List Row)
    (cenv : ClientEnv) (file : Option Bytes)
    (hstatus : (ExchangeRateHandler env table).response.status = StatusRequestTimeout ∨
      (ExchangeRateHandler env table).response.status = StatusInternalServerError)
    (hserver : cenv.server = delivered (ExchangeRateHandler env table).response) :
    (∃ msg ∈ errorMessages,
      (ExchangeRateHandler env table).response.body = goString msg ++ [byte 0x0A]) ∧
    unmarshalUsdbrl (ExchangeRateHandler env table).response.body =
      Except.error UnmarshalError.invalidJSON ∧
    clientMain cenv file = ⟨Exit.panicked, file⟩ ∧
    (∀ (nr : Bool) (st1 st2 : Nat) (read : ReadResult) (fs : FsEnv) (f : Option Bytes),
      clientMain ⟨nr, DoResult.response st1 read, fs⟩ f =
        clientMain ⟨nr, DoResult.response st2 read, fs⟩ f) ∧
    (∀ (cenv1 : ClientEnv) (f : Option Bytes), (clientMain cenv1 f).file ≠ f →
      ∃ st1 body q, cenv1.server = DoResult.response st1 (ReadResult.ok body) ∧
        unmarshalUsdbrl body = Except.ok q ∧ parseJSON body ≠ none) := by
  have key : ∃ msg ∈ errorMessages,
      (ExchangeRateHandler env table).response.body = goString msg ++ [byte 0x0A] := by
    have hp := handler_path env table
    generalize ExchangeRateHandler env table = out at hp hstatus
    cases hp
    case served =>
      simp [StatusOK, StatusInternalServerError, StatusRequestTimeout] at hstatus
    all_goals exact ⟨_, by simp [errorMessages], rfl⟩
  obtain ⟨msg, hmsg, hbody⟩ := key
  have hrej := error_bodies_not_json msg hmsg
  refine ⟨⟨msg, hmsg, hbody⟩, by rw [hbody]; exact hrej, ?_, ?_, ?_⟩
  · exact client_parse_error (by rw [hserver]; rfl) (by rw [hbody]; exact hrej) file
  · intro nr st1 st2 read fs f
    cases nr <;> cases read <;> rfl
  · intro cenv1 f hne
    obtain ⟨st1, body, q, hs, hq⟩ := client_file_changed hne
    refine ⟨st1, body, q, hs, hq, fun hnone => ?_⟩
    simp [unmarshalUsdbrl, hnone] at hq

/-- Witness of C10: the upstream call times out, the handler answers 408, and
the client that receives this response panics without touching the file. -/
theorem C10_client_panics_on_error_responses_witness :
    (ExchangeRateHandler fetchTimeoutEnv []).response.status = StatusRequestTimeout ∧
    clientMain ⟨true, delivered (ExchangeRateHandler fetchTimeoutEnv []).response,
      ⟨true, WriteResult.ok⟩⟩ (some (goString "Dólar: 5.40\n")) =
      ⟨Exit.panicked, some (goString "Dólar: 5.40\n")⟩ :=
  ⟨rfl, (C10_client_panics_on_error_responses fetchTimeoutEnv []
    ⟨true, delivered (ExchangeRateHandler fetchTimeoutEnv []).response, ⟨true, WriteResult.ok⟩⟩
    (some (goString "Dólar: 5.40\n")) (Or.inl rfl) rfl).2.2.1⟩

end CotacaoDolar
